import Mathlib

/-!
Verification of the canvas command subsystem: the element store
(`CanvasState.ts`, the zustand store), the command parser, the command
executor and the message processor (`CanvasCommandAPI.ts`).

Embedding conventions:
* JavaScript runtime values reachable in this subsystem (everything is
  `any`-typed in the source) are modelled by the inductive `JVal`;
  JavaScript `undefined` is modelled by `Option JVal` with `none` for
  `undefined`.  JSON numbers are modelled by `ℚ` (exact rationals instead
  of IEEE doubles; all numbers appearing in the claims are small integers).
* JavaScript objects are association lists with distinct keys, in insertion
  order; property update (`oset`) keeps the position of an existing key and
  appends a fresh key, exactly like JS object spread.
* A thrown TypeError (property access or destructuring on `null`) is
  modelled by `Except Unit`, `.error ()` being the thrown exception.
* `uuidv4()` is modelled by a generator `gen : Nat → String` applied to a
  per-store call counter `nextId`; freshness of generated ids is a
  hypothesis where a theorem needs it, mirroring uuid collision-freedom.
* JS whitespace (`\s`) and word (`\w`) character classes are modelled over
  the ASCII range, which covers every character class use in the source
  patterns.
-/

/-- A JavaScript/JSON runtime value (the source types these `any`). -/
inductive JVal where
  | jnull : JVal
  | jbool (b : Bool) : JVal
  | jnum (q : ℚ) : JVal
  | jstr (s : String) : JVal
  | jarr (items : List JVal) : JVal
  | jobj (fields : List (String × JVal)) : JVal

/-- A JavaScript object: key/value pairs in insertion order. -/
abbrev JsObj := List (String × JVal)

mutual

/-- Structural boolean equality on `JVal` (used to build decidable equality). -/
def jeq : JVal → JVal → Bool
  | .jnull, .jnull => true
  | .jbool a, .jbool b => a == b
  | .jnum a, .jnum b => a == b
  | .jstr a, .jstr b => a == b
  | .jarr a, .jarr b => jeqList a b
  | .jobj a, .jobj b => jeqFields a b
  | _, _ => false

/-- Structural boolean equality on lists of `JVal`. -/
def jeqList : List JVal → List JVal → Bool
  | [], [] => true
  | a :: as_, b :: bs => jeq a b && jeqList as_ bs
  | _, _ => false

/-- Structural boolean equality on object field lists. -/
def jeqFields : JsObj → JsObj → Bool
  | [], [] => true
  | (k, v) :: as_, (k2, v2) :: bs => k == k2 && jeq v v2 && jeqFields as_ bs
  | _, _ => false

end

mutual

theorem jeq_iff : ∀ a b : JVal, jeq a b = true ↔ a = b
  | .jnull, .jnull => by simp [jeq]
  | .jbool a, .jbool b => by simp [jeq]
  | .jnum a, .jnum b => by simp [jeq]
  | .jstr a, .jstr b => by simp [jeq]
  | .jarr a, .jarr b => by
      simp only [jeq, JVal.jarr.injEq]
      exact jeqList_iff a b
  | .jobj a, .jobj b => by
      simp only [jeq, JVal.jobj.injEq]
      exact jeqFields_iff a b
  | .jnull, .jbool _ | .jnull, .jnum _ | .jnull, .jstr _ | .jnull, .jarr _ | .jnull, .jobj _
  | .jbool _, .jnull | .jbool _, .jnum _ | .jbool _, .jstr _ | .jbool _, .jarr _ | .jbool _, .jobj _
  | .jnum _, .jnull | .jnum _, .jbool _ | .jnum _, .jstr _ | .jnum _, .jarr _ | .jnum _, .jobj _
  | .jstr _, .jnull | .jstr _, .jbool _ | .jstr _, .jnum _ | .jstr _, .jarr _ | .jstr _, .jobj _
  | .jarr _, .jnull | .jarr _, .jbool _ | .jarr _, .jnum _ | .jarr _, .jstr _ | .jarr _, .jobj _
  | .jobj _, .jnull | .jobj _, .jbool _ | .jobj _, .jnum _ | .jobj _, .jstr _ | .jobj _, .jarr _ => by
      simp [jeq]

theorem jeqList_iff : ∀ a b : List JVal, jeqList a b = true ↔ a = b
  | [], [] => by simp [jeqList]
  | a :: as_, b :: bs => by
      simp only [jeqList, Bool.and_eq_true, List.cons.injEq]
      exact and_congr (jeq_iff a b) (jeqList_iff as_ bs)
  | [], _ :: _ => by simp [jeqList]
  | _ :: _, [] => by simp [jeqList]

theorem jeqFields_iff : ∀ a b : JsObj, jeqFields a b = true ↔ a = b
  | [], [] => by simp [jeqFields]
  | (k, v) :: as_, (k2, v2) :: bs => by
      simp only [jeqFields, Bool.and_eq_true, List.cons.injEq, Prod.mk.injEq, beq_iff_eq]
      rw [jeq_iff v v2, jeqFields_iff as_ bs, and_assoc]
  | [], _ :: _ => by simp [jeqFields]
  | _ :: _, [] => by simp [jeqFields]

end

instance : DecidableEq JVal := fun a b =>
  decidable_of_iff (jeq a b = true) (jeq_iff a b)

/-- Property read on an object field list: the value bound to `key`,
`none` when the key is absent (JS `undefined`). -/
def oget : JsObj → String → Option JVal
  | [], _ => none
  | (k, v) :: rest, key => if k = key then some v else oget rest key

/-- Property write, as in a JS object literal / spread: an existing key keeps
its position, a new key is appended. -/
def oset : JsObj → String → JVal → JsObj
  | [], key, val => [(key, val)]
  | (k, v) :: rest, key, val =>
      if k = key then (k, val) :: rest else (k, v) :: oset rest key val

/-- Spread merge `{...base, ...patch}`: fold the patch's fields over the base object. -/
def omerge (base patch : JsObj) : JsObj :=
  patch.foldl (fun acc kv => oset acc kv.1 kv.2) base

/-- Drop every binding of `key` (the `const { type, ...rest } = params`
rest-destructuring, which removes the named property). -/
def stripKey (o : JsObj) (key : String) : JsObj :=
  o.filter (fun kv => kv.1 ≠ key)

/-- The own enumerable index properties of an array (what object
rest-destructuring of an array collects): key `"i"` ↦ element `i`. -/
def indexPairs (xs : List JVal) : JsObj :=
  xs.enum.map (fun p => (Nat.repr p.1, p.2))

/-- JS truthiness of a value. -/
def jsTruthy : JVal → Bool
  | .jnull => false
  | .jbool b => b
  | .jnum q => q ≠ 0
  | .jstr s => s ≠ ""
  | .jarr _ => true
  | .jobj _ => true

/-- JS truthiness of a possibly-`undefined` value. -/
def jsTruthyOpt : Option JVal → Bool
  | none => false
  | some v => jsTruthy v

/-- JS strict equality (`===`) on values.  Distinct object or array
references are never strictly equal; every comparison performed by this
subsystem compares values originating from different literals or different
`JSON.parse` calls, so object/array comparisons are modelled as `false`. -/
def jsStrictEq : JVal → JVal → Bool
  | .jnull, .jnull => true
  | .jbool a, .jbool b => a == b
  | .jnum a, .jnum b => a == b
  | .jstr a, .jstr b => a == b
  | _, _ => false

/-- JS strict equality where either side may be `undefined`. -/
def jsStrictEqOpt : Option JVal → Option JVal → Bool
  | none, none => true
  | some a, some b => jsStrictEq a b
  | _, _ => false

/-- JS property access `v[key]`: throws a TypeError on `null`, reads the
field on an object, and yields `undefined` on any other value. -/
def pget (v : JVal) (key : String) : Except Unit (Option JVal) :=
  match v with
  | .jnull => .error ()
  | .jobj fields => .ok (oget fields key)
  | _ => .ok none

/-- Defaulting `v || d` after a property read: the read value when truthy, else the
default (the `params.x || d` idiom of `createCanvasElement`). -/
def jsOr (v : Option JVal) (d : JVal) : JVal :=
  match v with
  | some x => if jsTruthy x then x else d
  | none => d

/-- Defaulting `params.x !== undefined ? params.x : d` (used for `filled` and
`opacity`). -/
def jsOrU (v : Option JVal) (d : JVal) : JVal :=
  v.getD d

/-- Read property `key` of `p` and apply the `||`-default. -/
def getOr (p : JVal) (key : String) (d : JVal) : Except Unit JVal := do
  let v ← pget p key
  pure (jsOr v d)

/-- Read property `key` of `p` and apply the `!== undefined`-default. -/
def getU (p : JVal) (key : String) (d : JVal) : Except Unit JVal := do
  let v ← pget p key
  pure (jsOrU v d)

/-- The zustand store state (`CanvasState.ts`): the element sequence and the
selected-element id (a JS value, `jnull` when no selection).  `nextId` is
the uuid-generator call counter of the embedding. -/
structure CanvasState where
  elements : List JsObj
  selectedElementId : JVal
  nextId : Nat
  deriving DecidableEq

/-- The store's initial state: no elements, no selection. -/
def initialState : CanvasState := ⟨[], .jnull, 0⟩

/-- Store `addElement`: assign a fresh id, append `{...element, id}`, return the id. -/
def addElement (gen : Nat → String) (element : JsObj) (s : CanvasState) :
    String × CanvasState :=
  let id := gen s.nextId
  (id, ⟨s.elements ++ [oset element "id" (.jstr id)], s.selectedElementId, s.nextId + 1⟩)

/-- Store `updateElement`: shallow-merge `updates` into every element whose `id`
is strictly equal to `id`. -/
def updateElement (id : JVal) (updates : JsObj) (s : CanvasState) : CanvasState :=
  ⟨s.elements.map (fun el =>
      if jsStrictEqOpt (oget el "id") (some id) then omerge el updates else el),
    s.selectedElementId, s.nextId⟩

/-- Store `removeElement`: drop elements with a matching id; null the selection if
the removed id was selected. -/
def removeElement (id : JVal) (s : CanvasState) : CanvasState :=
  ⟨s.elements.filter (fun el => !jsStrictEqOpt (oget el "id") (some id)),
    if jsStrictEq s.selectedElementId id then .jnull else s.selectedElementId,
    s.nextId⟩

/-- Store `selectElement`: set every element's `selected` flag to
`element.id === id` and record `selectedElementId = id`. -/
def selectElement (id : JVal) (s : CanvasState) : CanvasState :=
  ⟨s.elements.map (fun el =>
      oset el "selected" (.jbool (jsStrictEqOpt (oget el "id") (some id)))),
    id, s.nextId⟩

/-- Store `clearSelection`: set every `selected` flag to `false`, null the
selection. -/
def clearSelection (s : CanvasState) : CanvasState :=
  ⟨s.elements.map (fun el => oset el "selected" (.jbool false)), .jnull, s.nextId⟩

/-- Store `clearCanvas`: empty the element list and the selection. -/
def clearCanvas (s : CanvasState) : CanvasState :=
  ⟨[], .jnull, s.nextId⟩

/-- Executor `createCanvasElement(elementType, params = \x7b\x7d)`: fill defaults and add an
element of the given variant; returns `""` on an unknown variant.  The shared
defaults are read from `params` before the variant switch, so a `null`
`params` throws (modelled by `.error ()`) before anything else happens. -/
def createCanvasElement (gen : Nat → String) (elementType : JVal)
    (params? : Option JVal) (s : CanvasState) : Except Unit (String × CanvasState) := do
  let params := params?.getD (.jobj [])
  let position ← getOr params "position" (.jarr [.jnum 0, .jnum 0, .jnum 0])
  let rotation ← getOr params "rotation" (.jarr [.jnum 0, .jnum 0, .jnum 0])
  let scale ← getOr params "scale" (.jarr [.jnum 1, .jnum 1, .jnum 1])
  let color ← getOr params "color" (.jstr "#ffffff")
  let opacity ← getU params "opacity" (.jnum 1)
  if jsStrictEq elementType (.jstr "circle") then do
    let radius ← getOr params "radius" (.jnum 1)
    let filled ← getU params "filled" (.jbool true)
    let lineWidth ← getOr params "lineWidth" (.jnum 1)
    pure (addElement gen
      [("type", .jstr "circle"), ("position", position), ("rotation", rotation),
       ("scale", scale), ("color", color), ("opacity", opacity),
       ("radius", radius), ("filled", filled), ("lineWidth", lineWidth)] s)
  else if jsStrictEq elementType (.jstr "rectangle") then do
    let width ← getOr params "width" (.jnum 2)
    let height ← getOr params "height" (.jnum 1)
    let filled ← getU params "filled" (.jbool true)
    let lineWidth ← getOr params "lineWidth" (.jnum 1)
    pure (addElement gen
      [("type", .jstr "rectangle"), ("position", position), ("rotation", rotation),
       ("scale", scale), ("color", color), ("opacity", opacity),
       ("width", width), ("height", height), ("filled", filled),
       ("lineWidth", lineWidth)] s)
  else if jsStrictEq elementType (.jstr "line") then do
    let points ← getOr params "points"
      (.jarr [.jarr [.jnum 0, .jnum 0, .jnum 0], .jarr [.jnum 1, .jnum 1, .jnum 0]])
    let lineWidth ← getOr params "lineWidth" (.jnum 1)
    pure (addElement gen
      [("type", .jstr "line"), ("position", position), ("rotation", rotation),
       ("scale", scale), ("color", color), ("opacity", opacity),
       ("points", points), ("lineWidth", lineWidth)] s)
  else if jsStrictEq elementType (.jstr "polygon") then do
    let points ← getOr params "points"
      (.jarr [.jarr [.jnum 0, .jnum 0, .jnum 0], .jarr [.jnum 1, .jnum 0, .jnum 0],
              .jarr [.jnum 1, .jnum 1, .jnum 0], .jarr [.jnum 0, .jnum 1, .jnum 0]])
    let filled ← getU params "filled" (.jbool true)
    let lineWidth ← getOr params "lineWidth" (.jnum 1)
    pure (addElement gen
      [("type", .jstr "polygon"), ("position", position), ("rotation", rotation),
       ("scale", scale), ("color", color), ("opacity", opacity),
       ("points", points), ("filled", filled), ("lineWidth", lineWidth)] s)
  else if jsStrictEq elementType (.jstr "text") then do
    let text ← getOr params "text" (.jstr "Text")
    let fontSize ← getOr params "fontSize" (.jnum 1)
    let fontColor ← getOr params "fontColor" color
    pure (addElement gen
      [("type", .jstr "text"), ("position", position), ("rotation", rotation),
       ("scale", scale), ("color", color), ("opacity", opacity),
       ("text", text), ("fontSize", fontSize), ("fontColor", fontColor)] s)
  else if jsStrictEq elementType (.jstr "image") then do
    let url ← getOr params "url" (.jstr "/logo.jpg")
    let width ← getOr params "width" (.jnum 3)
    let height ← getOr params "height" (.jnum 2)
    pure (addElement gen
      [("type", .jstr "image"), ("position", position), ("rotation", rotation),
       ("scale", scale), ("color", color), ("opacity", opacity),
       ("url", url), ("width", width), ("height", height)] s)
  else
    pure ("", s)

/-- Destructuring `const \x7b type, ...updateParams \x7d = params`: object rest-destructuring.
Throws on `null`; collects index properties of arrays and strings; yields an
empty object for other primitives. -/
def destructRest (v : JVal) : Except Unit JsObj :=
  match v with
  | .jnull => .error ()
  | .jobj fields => .ok (stripKey fields "type")
  | .jarr xs => .ok (indexPairs xs)
  | .jstr s => .ok (indexPairs (s.data.map (fun c => .jstr (String.mk [c]))))
  | _ => .ok []

/-- Executor `updateCanvasElement(elementId, params = \x7b\x7d)`: no-op (with a logged
error) when no element matches; otherwise strips `type` from the params and
delegates to the store's `updateElement`. -/
def updateCanvasElement (elementId : JVal) (params? : Option JVal)
    (s : CanvasState) : Except Unit CanvasState :=
  match s.elements.find? (fun e => jsStrictEqOpt (oget e "id") (some elementId)) with
  | none => .ok s
  | some _ => do
      let updateParams ← destructRest (params?.getD (.jobj []))
      .ok (updateElement elementId updateParams s)

/-- Executor `executeCanvasCommand(command)`: dispatch on `command.command`,
returning the produced/affected id (`none` models `undefined`) and the new
store state; `.error ()` models a thrown TypeError. -/
def executeCanvasCommand (gen : Nat → String) (command : JVal)
    (s : CanvasState) : Except Unit (Option JVal × CanvasState) := do
  let verb ← pget command "command"
  if jsStrictEqOpt verb (some (.jstr "create")) then do
    let et ← pget command "elementType"
    if jsTruthyOpt et then do
      let ps ← pget command "params"
      match et with
      | some etv => do
          let (id, s') ← createCanvasElement gen etv ps s
          pure (some (.jstr id), s')
      | none => pure (none, s)
    else
      pure (none, s)
  else if jsStrictEqOpt verb (some (.jstr "update")) then do
    let eid ← pget command "elementId"
    if jsTruthyOpt eid then do
      let ps ← pget command "params"
      match eid with
      | some eidv => do
          let s' ← updateCanvasElement eidv ps s
          pure (some eidv, s')
      | none => pure (none, s)
    else
      pure (none, s)
  else if jsStrictEqOpt verb (some (.jstr "delete")) then do
    let eid ← pget command "elementId"
    if jsTruthyOpt eid then
      match eid with
      | some eidv => pure (some eidv, removeElement eidv s)
      | none => pure (none, s)
    else
      pure (none, s)
  else if jsStrictEqOpt verb (some (.jstr "clear")) then
    pure (none, clearCanvas s)
  else if jsStrictEqOpt verb (some (.jstr "select")) then do
    let eid ← pget command "elementId"
    if jsTruthyOpt eid then
      match eid with
      | some eidv => pure (some eidv, selectElement eidv s)
      | none => pure (none, s)
    else
      pure (none, s)
  else if jsStrictEqOpt verb (some (.jstr "deselect")) then
    pure (none, clearSelection s)
  else
    pure (none, s)

/-! ### The command parser (`parseCanvasCommands`) -/

/-- The left-brace character, `{`. -/
def lbrace : Char := Char.ofNat 123

/-- The right-brace character, `}`. -/
def rbrace : Char := Char.ofNat 125

/-- The backtick character. -/
def backtick : Char := Char.ofNat 96

/-- JSON whitespace accepted by `JSON.parse`. -/
def isJsonWs (c : Char) : Bool := c = ' ' || c = '\t' || c = '\n' || c = '\r'

/-- Skip JSON whitespace. -/
def skipJsonWs (cs : List Char) : List Char := cs.dropWhile isJsonWs

/-- The regex `\s` class (ASCII range). -/
def isJsWsChar (c : Char) : Bool :=
  c = ' ' || c = '\t' || c = '\n' || c = '\r' || c = '\x0b' || c = '\x0c'

/-- The regex `\w` class: `[A-Za-z0-9_]`. -/
def isWordChar (c : Char) : Bool := c.isAlpha || c.isDigit || c = '_'

/-- A line terminator, which the regex `.` does not match. -/
def isLineTerm (c : Char) : Bool := c = '\n' || c = '\r'

/-- Case-insensitive prefix test; the pattern is given in lowercase. -/
def startsWithCI : List Char → List Char → Bool
  | [], _ => true
  | _ :: _, [] => false
  | p :: ps, c :: cs => (c.toLower == p) && startsWithCI ps cs

/-- An ASCII decimal digit. -/
def isDigitChar (c : Char) : Bool := '0' ≤ c && c ≤ '9'

/-- Decimal digits to a natural number. -/
def digitsToNat (ds : List Char) : Nat :=
  ds.foldl (fun n c => 10 * n + (c.toNat - 48)) 0

/-- Hexadecimal digit value, if any. -/
def hexDigitVal (c : Char) : Option Nat :=
  let n := c.toNat
  if 48 ≤ n && n ≤ 57 then some (n - 48)
  else if 97 ≤ n && n ≤ 102 then some (n - 87)
  else if 65 ≤ n && n ≤ 70 then some (n - 55)
  else none

/-- Read exactly four hex digits, returning their value and the rest. -/
def hex4 (cs : List Char) : Option (Nat × List Char) :=
  let ds := (cs.take 4).filterMap hexDigitVal
  if ds.length = 4 then some (ds.foldl (fun a d => a * 16 + d) 0, cs.drop 4)
  else none

/-- The single-character string escapes accepted by `JSON.parse`. -/
def escMap (e : Char) : Option Char :=
  if e = '"' then some '"'
  else if e = '\\' then some '\\'
  else if e = '/' then some '/'
  else if e = 'b' then some '\x08'
  else if e = 'f' then some '\x0c'
  else if e = 'n' then some '\n'
  else if e = 'r' then some '\x0d'
  else if e = 't' then some '\t'
  else none

/-- Consume an exact run of expected characters. -/
def dropTok : List Char → List Char → Option (List Char)
  | [], cs => some cs
  | t :: ts, c :: cs => if c = t then dropTok ts cs else none
  | _ :: _, [] => none

/-- Parse the body of a JSON string (after the opening quote), returning the
decoded characters and the remaining input.  Raw control characters are
rejected, escapes are decoded, as in `JSON.parse`. -/
def parseJsonStringChars : Nat → List Char → Option (List Char × List Char)
  | 0, _ => none
  | _, [] => none
  | fuel + 1, c :: rest =>
    if c = '"' then some ([], rest)
    else if c = '\\' then
      match rest with
      | [] => none
      | e :: rest2 =>
        let dec : Option (Char × List Char) :=
          if e = 'u' then (hex4 rest2).map (fun pr => (Char.ofNat pr.1, pr.2))
          else (escMap e).map (fun d => (d, rest2))
        match dec with
        | none => none
        | some (d, rem) =>
          match parseJsonStringChars fuel rem with
          | some (cs2, rem2) => some (d :: cs2, rem2)
          | none => none
    else if c.toNat < 32 then none
    else
      match parseJsonStringChars fuel rest with
      | some (cs2, rem2) => some (c :: cs2, rem2)
      | none => none

/-- Parse an optional JSON fraction part. -/
def parseJsonFrac (cs : List Char) : Option (List Char × List Char) :=
  match cs with
  | '.' :: r =>
      let ds := r.takeWhile isDigitChar
      if ds.isEmpty then none else some (ds, r.dropWhile isDigitChar)
  | _ => some ([], cs)

/-- Parse an optional JSON exponent part. -/
def parseJsonExp (cs : List Char) : Option (Int × List Char) :=
  match cs with
  | c :: r =>
    if c = 'e' || c = 'E' then
      let (sgn, r1) : Int × List Char :=
        match r with
        | '+' :: r2 => (1, r2)
        | '-' :: r2 => (-1, r2)
        | _ => (1, r)
      let ds := r1.takeWhile isDigitChar
      if ds.isEmpty then none
      else some (sgn * (digitsToNat ds : Int), r1.dropWhile isDigitChar)
    else some (0, cs)
  | [] => some (0, [])

/-- Parse a JSON number (strict grammar: no leading zeros, etc.). -/
def parseJsonNumber (cs : List Char) : Option (ℚ × List Char) :=
  let (neg, cs1) : Bool × List Char :=
    match cs with
    | '-' :: r => (true, r)
    | _ => (false, cs)
  match cs1 with
  | [] => none
  | c :: _ =>
    if isDigitChar c then
      let ids := cs1.takeWhile isDigitChar
      let cs2 := cs1.dropWhile isDigitChar
      if ids.length > 1 && ids.headD 'x' == '0' then none
      else
        match parseJsonFrac cs2 with
        | none => none
        | some (fds, cs3) =>
          match parseJsonExp cs3 with
          | none => none
          | some (ex, cs4) =>
            let mant : Int := (digitsToNat (ids ++ fds) : Int)
            let mant := if neg then -mant else mant
            some ((mant : ℚ) * (10 : ℚ) ^ (ex - (fds.length : Int)), cs4)
    else none

mutual

/-- Parse a JSON value (fuel bounds nesting depth). -/
def parseJsonValue : Nat → List Char → Option (JVal × List Char)
  | 0, _ => none
  | fuel + 1, cs0 =>
    let cs := skipJsonWs cs0
    match cs with
    | [] => none
    | c :: rest =>
      if c = 'n' then
        (dropTok ['u', 'l', 'l'] rest).map (fun r => (JVal.jnull, r))
      else if c = 't' then
        (dropTok ['r', 'u', 'e'] rest).map (fun r => (JVal.jbool true, r))
      else if c = 'f' then
        (dropTok ['a', 'l', 's', 'e'] rest).map (fun r => (JVal.jbool false, r))
      else if c = '"' then
        match parseJsonStringChars rest.length rest with
        | some (chars, r) => some (.jstr (String.mk chars), r)
        | none => none
      else if c = '[' then
        let r := skipJsonWs rest
        match r with
        | c2 :: r2 =>
          if c2 = ']' then some (.jarr [], r2)
          else
            match parseJsonItems fuel r with
            | some (items, r3) => some (.jarr items, r3)
            | none => none
        | [] => none
      else if c = lbrace then
        let r := skipJsonWs rest
        match r with
        | c2 :: r2 =>
          if c2 = rbrace then some (.jobj [], r2)
          else
            match parseJsonMembers fuel [] r with
            | some (fields, r3) => some (.jobj fields, r3)
            | none => none
        | [] => none
      else
        match parseJsonNumber cs with
        | some (q, r) => some (.jnum q, r)
        | none => none

/-- Parse the comma-separated items of a JSON array, up to `]`. -/
def parseJsonItems : Nat → List Char → Option (List JVal × List Char)
  | 0, _ => none
  | fuel + 1, cs =>
    match parseJsonValue fuel cs with
    | none => none
    | some (v, r0) =>
      let r := skipJsonWs r0
      match r with
      | ',' :: r2 =>
        match parseJsonItems fuel r2 with
        | some (vs, r3) => some (v :: vs, r3)
        | none => none
      | c :: r2 =>
        if c = ']' then some ([v], r2) else none
      | [] => none

/-- Parse the members of a JSON object, up to `}`; a duplicate key keeps its
original position and takes the later value, as in `JSON.parse`. -/
def parseJsonMembers : Nat → JsObj → List Char → Option (JsObj × List Char)
  | 0, _, _ => none
  | fuel + 1, acc, cs0 =>
    let cs := skipJsonWs cs0
    match cs with
    | '"' :: r =>
      match parseJsonStringChars r.length r with
      | none => none
      | some (kchars, r2) =>
        match skipJsonWs r2 with
        | ':' :: r3 =>
          match parseJsonValue fuel r3 with
          | none => none
          | some (v, r4) =>
            let acc2 := oset acc (String.mk kchars) v
            match skipJsonWs r4 with
            | ',' :: r5 => parseJsonMembers fuel acc2 r5
            | c :: r5 => if c = rbrace then some (acc2, r5) else none
            | [] => none
        | _ => none
    | _ => none

end

/-- Full `JSON.parse`: parse a complete JSON text (whole input consumed). -/
def parseJson (cs : List Char) : Option JVal :=
  match parseJsonValue (cs.length + 1) cs with
  | some (v, rest) => if (skipJsonWs rest).isEmpty then some v else none
  | none => none

/-- The literal `/canvas` of `COMMAND_PATTERN`. -/
def canvasLit : List Char := ['/', 'c', 'a', 'n', 'v', 'a', 's']

/-- Match the optional `(?:\s+(.+))?` tail group of `COMMAND_PATTERN` at the
given position, with the regex engine's greedy/backtracking behaviour. -/
def tryGroup3 (cs : List Char) : Option (List Char) :=
  let ws := cs.takeWhile isJsWsChar
  let rest := cs.dropWhile isJsWsChar
  if ws.isEmpty then none
  else if rest.isEmpty then
    match ws.reverse.dropWhile isLineTerm with
    | [] => none
    | c :: rest2 => if rest2.isEmpty then none else some [c]
  else some (rest.takeWhile (fun c => !isLineTerm c))

/-- Match `\s+(\w+)(?:\s+(\w+))?(?:\s+(.+))?` (the part of `COMMAND_PATTERN`
after the `/canvas` literal). -/
def tryCanvasTail (cs : List Char) :
    Option (List Char × Option (List Char) × Option (List Char)) :=
  let ws1 := cs.takeWhile isJsWsChar
  let r1 := cs.dropWhile isJsWsChar
  if ws1.isEmpty then none
  else
    let w1 := r1.takeWhile isWordChar
    let r2 := r1.dropWhile isWordChar
    if w1.isEmpty then none
    else
      let ws2 := r2.takeWhile isJsWsChar
      let r3 := r2.dropWhile isJsWsChar
      let w2 := r3.takeWhile isWordChar
      if ws2.isEmpty || w2.isEmpty then some (w1, none, tryGroup3 r2)
      else some (w1, some w2, tryGroup3 (r3.dropWhile isWordChar))

/-- Matching `line.match(COMMAND_PATTERN)`: the first position whose `/canvas` literal
is followed by a full pattern match (case-insensitive). -/
def scanCanvas : List Char → Option (List Char × Option (List Char) × Option (List Char))
  | [] => none
  | c :: rest =>
    if startsWithCI canvasLit (c :: rest) then
      match tryCanvasTail ((c :: rest).drop 7) with
      | some r => some r
      | none => scanCanvas rest
    else scanCanvas rest

/-- Build the inline command object
`{ command: g1.toLowerCase(), elementType: g2?.toLowerCase(), params }`
from the three captured groups (the `elementType` property is absent when
the group did not participate; its value would be `undefined` either way). -/
def buildInlineCommand (m : List Char × Option (List Char) × Option (List Char)) : JVal :=
  let verb := String.mk (m.1.map Char.toLower)
  let et := m.2.1.map (fun w => String.mk (w.map Char.toLower))
  let params : JVal :=
    match m.2.2 with
    | none => .jobj []
    | some p =>
      match parseJson p with
      | some v => v
      | none => .jobj [("text", .jstr (String.mk p))]
  .jobj ([("command", .jstr verb)] ++
    (match et with
     | some e => [("elementType", .jstr e)]
     | none => []) ++
    [("params", params)])

/-- Splitting `message.split("\n")`. -/
def splitLines : List Char → List (List Char)
  | [] => [[]]
  | c :: rest =>
    if c = '\n' then [] :: splitLines rest
    else
      match splitLines rest with
      | l :: ls => (c :: l) :: ls
      | [] => [[c]]

/-- The inline commands: one per line matching `COMMAND_PATTERN`, in line
order. -/
def inlineCommands (msg : List Char) : List JVal :=
  (splitLines msg).filterMap (fun l => (scanCanvas l).map buildInlineCommand)

/-- The three-backtick fence literal of `JSON_PATTERN`. -/
def fenceLit : List Char := [backtick, backtick, backtick]

/-- The optional `json` language tag of `JSON_PATTERN`. -/
def jsonTagLit : List Char := ['j', 's', 'o', 'n']

/-- Does `\s*` followed by a closing fence start here? -/
def closesFence (cs : List Char) : Bool :=
  startsWithCI fenceLit (cs.dropWhile isJsWsChar)

/-- The lazy `[\s\S]*?[\]\}]` scan: extend the captured content to the
earliest `]` or `}` that is followed by `\s*` and a closing fence. -/
def scanFenceContent (acc : List Char) : List Char → Option (List Char)
  | [] => none
  | d :: rest =>
    if (d = ']' || d = rbrace) && closesFence rest then some (acc ++ [d])
    else scanFenceContent (acc ++ [d]) rest

/-- After the language tag: `\s*` then a `[` or `{` opening the captured
content. -/
def tryFenceAfterTag (cs : List Char) : Option (List Char) :=
  match cs.dropWhile isJsWsChar with
  | c :: body =>
    if c = '[' || c = lbrace then scanFenceContent [c] body else none
  | [] => none

/-- Match the body of `JSON_PATTERN` after an opening fence; the greedy
optional `json` tag is tried first, then dropped on failure. -/
def tryFenceBody (cs : List Char) : Option (List Char) :=
  if startsWithCI jsonTagLit cs then
    match tryFenceAfterTag (cs.drop 4) with
    | some r => some r
    | none => tryFenceAfterTag cs
  else tryFenceAfterTag cs

/-- Matching `message.match(JSON_PATTERN)`: capture group 1 of the first match. -/
def scanFence : List Char → Option (List Char)
  | [] => none
  | c :: rest =>
    if startsWithCI fenceLit (c :: rest) then
      match tryFenceBody ((c :: rest).drop 3) with
      | some r => some r
      | none => scanFence rest
    else scanFence rest

/-- The commands contributed by the first fenced block: all items of a JSON
array, or the object itself when its `command` property is truthy. -/
def fencedCommands (msg : List Char) : List JVal :=
  match scanFence msg with
  | none => []
  | some content =>
    match parseJson content with
    | some (.jarr xs) => xs
    | some (.jobj fields) =>
        if jsTruthyOpt (oget fields "command") then [.jobj fields] else []
    | _ => []

/-- Parser `parseCanvasCommands(message)`: inline `/canvas` matches (in line order)
followed by the fenced-block commands. -/
def parseCanvasCommands (message : String) : List JVal :=
  inlineCommands message.data ++ fencedCommands message.data

/-- Execute a list of commands in order (`commands.map(executeCanvasCommand)`
with the shared mutable store threaded through; a thrown exception aborts
the whole map). -/
def execCommands (gen : Nat → String) : List JVal → CanvasState →
    Except Unit (List (Option JVal) × CanvasState)
  | [], s => .ok ([], s)
  | c :: cs, s => do
    let (r, s') ← executeCanvasCommand gen c s
    let (rs, s'') ← execCommands gen cs s'
    .ok (r :: rs, s'')

/-- Processor `processAIMessage(message)`: parse, then execute every command in order. -/
def processAIMessage (gen : Nat → String) (message : String) (s : CanvasState) :
    Except Unit (List (Option JVal) × CanvasState) :=
  execCommands gen (parseCanvasCommands message) s


/-! ### Auxiliary definitions used by the theorems -/

/-- Total property read (what `pget` yields when it does not throw). -/
def pgetD (v : JVal) (key : String) : Option JVal :=
  match v with
  | .jobj fields => oget fields key
  | _ => none

/-- The selection invariant: element ids are strings, pairwise distinct, and
an element's `selected` flag is `true` exactly when `selectedElementId` is
non-null and equals its id. -/
def SelInv (s : CanvasState) : Prop :=
  (∀ e ∈ s.elements, ∃ t, oget e "id" = some (.jstr t)) ∧
  (s.elements.map (fun e => oget e "id")).Nodup ∧
  (∀ e ∈ s.elements, oget e "selected" = some (.jbool true) ↔
      (s.selectedElementId ≠ .jnull ∧ oget e "id" = some s.selectedElementId))

/-- A command is *well-behaved* when its `params`, if an object, does not
carry `id` or `selected` fields (and is not an array or string, whose
destructuring would contribute index keys). -/
def GoodCmd (cmd : JVal) : Prop :=
  ∀ o, cmd = .jobj o →
    match oget o "params" with
    | some (.jobj p) => oget p "id" = none ∧ oget p "selected" = none
    | some (.jarr _) => False
    | some (.jstr _) => False
    | _ => True

deriving instance DecidableEq for Except

/-- A demonstration uuid generator for concrete instances: `"elem-<n>"`. -/
def genDemo : Nat → String := fun n => "elem-" ++ Nat.repr n

/-- States reachable from the initial store state by well-behaved store
operations and executed commands: `addElement` arguments carry no `id` or
`selected` field (as for every element `createCanvasElement` builds),
`updateElement` patches and command params carry no `id` or `selected`
field, and each generated id is fresh (the uuid collision-freedom
assumption): it differs from every present element id and from the current
`selectedElementId`. -/
inductive ReachableGood (gen : Nat → String) : CanvasState → Prop where
  | init : ReachableGood gen initialState
  | step_add (s : CanvasState) (el : JsObj) :
      ReachableGood gen s → oget el "id" = none → oget el "selected" = none →
      (∀ e ∈ s.elements, oget e "id" ≠ some (.jstr (gen s.nextId))) →
      s.selectedElementId ≠ .jstr (gen s.nextId) →
      ReachableGood gen (addElement gen el s).2
  | step_update (s : CanvasState) (id : JVal) (patch : JsObj) :
      ReachableGood gen s → oget patch "id" = none → oget patch "selected" = none →
      ReachableGood gen (updateElement id patch s)
  | step_remove (s : CanvasState) (id : JVal) :
      ReachableGood gen s → ReachableGood gen (removeElement id s)
  | step_select (s : CanvasState) (id : JVal) :
      ReachableGood gen s → ReachableGood gen (selectElement id s)
  | step_clearSelection (s : CanvasState) :
      ReachableGood gen s → ReachableGood gen (clearSelection s)
  | step_clearCanvas (s : CanvasState) :
      ReachableGood gen s → ReachableGood gen (clearCanvas s)
  | step_exec (s : CanvasState) (cmd : JVal) (r : Option JVal) (s' : CanvasState) :
      ReachableGood gen s → GoodCmd cmd →
      (∀ e ∈ s.elements, oget e "id" ≠ some (.jstr (gen s.nextId))) →
      s.selectedElementId ≠ .jstr (gen s.nextId) →
      executeCanvasCommand gen cmd s = .ok (r, s') →
      ReachableGood gen s'

/-! ### Object-level lemmas -/

theorem oget_oset_self (o : JsObj) (k : String) (v : JVal) :
    oget (oset o k v) k = some v := by
  induction o with
  | nil => simp [oset, oget]
  | cons kv rest ih =>
    obtain ⟨k0, v0⟩ := kv
    by_cases h : k0 = k
    · simp [oset, oget, h]
    · simp [oset, oget, h, ih]

theorem oget_oset_ne (o : JsObj) (k k2 : String) (v : JVal) (h : k2 ≠ k) :
    oget (oset o k v) k2 = oget o k2 := by
  have h' : k ≠ k2 := Ne.symm h
  induction o with
  | nil => simp [oset, oget, h']
  | cons kv rest ih =>
    obtain ⟨k0, v0⟩ := kv
    by_cases h0 : k0 = k
    · subst h0
      simp [oset, oget, h']
    · by_cases h2 : k0 = k2
      · simp [oset, oget, h0, h2, h, h']
      · simp [oset, oget, h0, h2, ih]

theorem oget_eq_none_of_not_mem (o : JsObj) (k : String)
    (h : k ∉ o.map Prod.fst) : oget o k = none := by
  induction o with
  | nil => simp [oget]
  | cons kv rest ih =>
    obtain ⟨k0, v0⟩ := kv
    simp only [List.map_cons, List.mem_cons] at h
    push_neg at h
    simp [oget, Ne.symm h.1, ih h.2]

theorem not_mem_of_oget_eq_none (o : JsObj) (k : String)
    (h : oget o k = none) : k ∉ o.map Prod.fst := by
  induction o with
  | nil => simp
  | cons kv rest ih =>
    obtain ⟨k0, v0⟩ := kv
    by_cases h0 : k0 = k
    · simp [oget, h0] at h
    · simp only [oget, h0, if_false] at h
      simp [Ne.symm h0, ih h]

theorem oget_omerge_of_none (e p : JsObj) (k : String) (h : oget p k = none) :
    oget (omerge e p) k = oget e k := by
  induction p generalizing e with
  | nil => simp [omerge]
  | cons kv rest ih =>
    obtain ⟨k0, v0⟩ := kv
    by_cases h0 : k0 = k
    · simp [oget, h0] at h
    · simp only [oget, h0, if_false] at h
      show oget (omerge (oset e k0 v0) rest) k = oget e k
      rw [ih (oset e k0 v0) h, oget_oset_ne _ _ _ _ (Ne.symm h0)]

theorem oget_omerge_of_some (e p : JsObj) (k : String) (v : JVal)
    (hnd : (p.map Prod.fst).Nodup) (h : oget p k = some v) :
    oget (omerge e p) k = some v := by
  induction p generalizing e with
  | nil => simp [oget] at h
  | cons kv rest ih =>
    obtain ⟨k0, v0⟩ := kv
    simp only [List.map_cons, List.nodup_cons] at hnd
    by_cases h0 : k0 = k
    · subst h0
      have hv : v0 = v := by simpa [oget] using h
      subst hv
      show oget (omerge (oset e k0 v0) rest) k0 = some v0
      rw [oget_omerge_of_none _ _ _ (oget_eq_none_of_not_mem _ _ hnd.1),
        oget_oset_self]
    · simp only [oget, h0, if_false] at h
      exact ih (oset e k0 v0) hnd.2 h

theorem oget_stripKey (o : JsObj) (key k : String) :
    oget (stripKey o key) k = if k = key then none else oget o k := by
  induction o with
  | nil => simp [stripKey, oget]
  | cons kv rest ih =>
    obtain ⟨k0, v0⟩ := kv
    by_cases h0 : k0 = key
    · subst h0
      have : stripKey ((k0, v0) :: rest) k0 = stripKey rest k0 := by
        simp [stripKey, List.filter]
      rw [this, ih]
      by_cases hk : k = k0
      · simp [hk]
      · simp [hk, oget, Ne.symm hk]
    · have : stripKey ((k0, v0) :: rest) key = (k0, v0) :: stripKey rest key := by
        simp only [stripKey, List.filter_cons]
        simp [h0]
      rw [this]
      by_cases h2 : k0 = k
      · subst h2
        simp [oget, h0]
      · simp [oget, h2, ih]

theorem countP_le_one_of_map_nodup {α β : Type} (l : List α) (f : α → β)
    (p : α → Bool) (c : β) (hnd : (l.map f).Nodup)
    (h : ∀ a ∈ l, p a = true → f a = c) : l.countP p ≤ 1 := by
  induction l with
  | nil => simp
  | cons a rest ih =>
    simp only [List.map_cons, List.nodup_cons] at hnd
    rw [List.countP_cons]
    by_cases hp : p a = true
    · have hfa : f a = c := h a (List.mem_cons_self a rest) hp
      have hrest : rest.countP p = 0 := by
        rw [List.countP_eq_zero]
        intro b hb hpb
        have hfb : f b = c := h b (List.mem_cons_of_mem _ hb) hpb
        exact hnd.1 ((hfa.trans hfb.symm) ▸ List.mem_map_of_mem f hb)
      simp [hrest, hp]
    · simp only [hp, if_false, Nat.add_zero]
      exact ih hnd.2 (fun b hb => h b (List.mem_cons_of_mem _ hb))

/-! ### The selection-coherence invariant -/

theorem selInv_initial : SelInv initialState := by
  refine ⟨?_, ?_, ?_⟩ <;> simp [initialState]

theorem selInv_addElement (gen : Nat → String) (el : JsObj) (s : CanvasState)
    (hinv : SelInv s) (_hid : oget el "id" = none) (hsel : oget el "selected" = none)
    (hfresh : ∀ e ∈ s.elements, oget e "id" ≠ some (.jstr (gen s.nextId)))
    (hselid : s.selectedElementId ≠ .jstr (gen s.nextId)) :
    SelInv (addElement gen el s).2 := by
  obtain ⟨h1, h2, h3⟩ := hinv
  have hgid : oget (oset el "id" (.jstr (gen s.nextId))) "id"
      = some (.jstr (gen s.nextId)) := oget_oset_self _ _ _
  have hgsel : oget (oset el "id" (.jstr (gen s.nextId))) "selected"
      = oget el "selected" := oget_oset_ne _ _ _ _ (by decide)
  refine ⟨?_, ?_, ?_⟩
  · intro e he
    simp only [addElement, List.mem_append, List.mem_singleton] at he
    rcases he with he | he
    · exact h1 e he
    · subst he
      exact ⟨gen s.nextId, hgid⟩
  · simp only [addElement, List.map_append, List.map_cons, List.map_nil]
    rw [List.nodup_append]
    refine ⟨h2, List.nodup_singleton _, ?_⟩
    intro x hx hx2
    simp only [List.mem_map] at hx
    obtain ⟨e, he, hxe⟩ := hx
    simp only [List.mem_singleton] at hx2
    rw [hx2, hgid] at hxe
    exact hfresh e he hxe
  · intro e he
    simp only [addElement, List.mem_append, List.mem_singleton] at he
    rcases he with he | he
    · exact h3 e he
    · subst he
      rw [hgsel, hsel, hgid]
      constructor
      · intro hc
        exact absurd hc (by simp)
      · rintro ⟨-, hc⟩
        exact absurd (Option.some.inj hc).symm hselid

theorem selInv_updateElement (id : JVal) (patch : JsObj) (s : CanvasState)
    (hinv : SelInv s) (hpid : oget patch "id" = none)
    (hpsel : oget patch "selected" = none) :
    SelInv (updateElement id patch s) := by
  obtain ⟨h1, h2, h3⟩ := hinv
  set f := fun el =>
    if jsStrictEqOpt (oget el "id") (some id) then omerge el patch else el with hf
  have hfid : ∀ e, oget (f e) "id" = oget e "id" := by
    intro e
    rw [hf]
    by_cases hc : jsStrictEqOpt (oget e "id") (some id) = true
    · simp only [hc, if_true]
      exact oget_omerge_of_none _ _ _ hpid
    · simp [hc]
  have hfsel : ∀ e, oget (f e) "selected" = oget e "selected" := by
    intro e
    rw [hf]
    by_cases hc : jsStrictEqOpt (oget e "id") (some id) = true
    · simp only [hc, if_true]
      exact oget_omerge_of_none _ _ _ hpsel
    · simp [hc]
  refine ⟨?_, ?_, ?_⟩
  · intro e he
    simp only [updateElement, List.mem_map] at he
    obtain ⟨e0, he0, hee⟩ := he
    subst hee
    rw [hfid e0]
    exact h1 e0 he0
  · show ((s.elements.map f).map (fun e => oget e "id")).Nodup
    rw [List.map_map]
    have : ((fun e => oget e "id") ∘ f) = fun e => oget e "id" := by
      funext e
      exact hfid e
    rw [this]
    exact h2
  · intro e he
    simp only [updateElement, List.mem_map] at he
    obtain ⟨e0, he0, hee⟩ := he
    subst hee
    show oget (f e0) "selected" = some (.jbool true) ↔
      (s.selectedElementId ≠ .jnull ∧ oget (f e0) "id" = some s.selectedElementId)
    rw [hfid e0, hfsel e0]
    exact h3 e0 he0

theorem selInv_removeElement (id : JVal) (s : CanvasState) (hinv : SelInv s) :
    SelInv (removeElement id s) := by
  obtain ⟨h1, h2, h3⟩ := hinv
  refine ⟨?_, ?_, ?_⟩
  · intro e he
    simp only [removeElement, List.mem_filter] at he
    exact h1 e he.1
  · exact List.Nodup.sublist (List.Sublist.map _ (List.filter_sublist _)) h2
  · intro e he
    simp only [removeElement, List.mem_filter] at he
    obtain ⟨he0, hkeep⟩ := he
    simp only [removeElement]
    by_cases hc : jsStrictEq s.selectedElementId id = true
    · rw [if_pos hc]
      constructor
      · intro hsel
        obtain ⟨hne, hid⟩ := (h3 e he0).1 hsel
        have hmatch : jsStrictEqOpt (oget e "id") (some id) = true := by
          rw [hid]
          exact hc
        rw [hmatch] at hkeep
        simp at hkeep
      · rintro ⟨hne, -⟩
        exact absurd rfl hne
    · rw [if_neg hc]
      exact h3 e he0

theorem selInv_selectElement (id : JVal) (s : CanvasState) (hinv : SelInv s) :
    SelInv (selectElement id s) := by
  obtain ⟨h1, h2, h3⟩ := hinv
  set f := fun el =>
    oset el "selected" (JVal.jbool (jsStrictEqOpt (oget el "id") (some id))) with hf
  have hfid : ∀ e, oget (f e) "id" = oget e "id" := by
    intro e
    rw [hf]
    exact oget_oset_ne _ _ _ _ (by decide)
  refine ⟨?_, ?_, ?_⟩
  · intro e he
    simp only [selectElement, List.mem_map] at he
    obtain ⟨e0, he0, hee⟩ := he
    subst hee
    rw [hfid e0]
    exact h1 e0 he0
  · show ((s.elements.map f).map (fun e => oget e "id")).Nodup
    rw [List.map_map]
    have : ((fun e => oget e "id") ∘ f) = fun e => oget e "id" := by
      funext e
      exact hfid e
    rw [this]
    exact h2
  · intro e he
    simp only [selectElement, List.mem_map] at he
    obtain ⟨e0, he0, hee⟩ := he
    subst hee
    show oget (f e0) "selected" = some (.jbool true) ↔
      (id ≠ .jnull ∧ oget (f e0) "id" = some id)
    rw [hfid e0, hf]
    obtain ⟨t, ht⟩ := h1 e0 he0
    simp only [oget_oset_self, Option.some.injEq, JVal.jbool.injEq, ht]
    rcases id with _ | b | q | u | xs | fs <;>
      simp [jsStrictEqOpt, jsStrictEq]

theorem selInv_clearSelection (s : CanvasState) (hinv : SelInv s) :
    SelInv (clearSelection s) := by
  obtain ⟨h1, h2, h3⟩ := hinv
  have hfid : ∀ e : JsObj, oget (oset e "selected" (.jbool false)) "id" = oget e "id" :=
    fun e => oget_oset_ne _ _ _ _ (by decide)
  refine ⟨?_, ?_, ?_⟩
  · intro e he
    simp only [clearSelection, List.mem_map] at he
    obtain ⟨e0, he0, hee⟩ := he
    subst hee
    rw [hfid e0]
    exact h1 e0 he0
  · show ((s.elements.map _).map (fun e => oget e "id")).Nodup
    rw [List.map_map]
    have : ((fun e => oget e "id") ∘ fun e => oset e "selected" (JVal.jbool false))
        = fun e => oget e "id" := by
      funext e
      exact hfid e
    rw [this]
    exact h2
  · intro e he
    simp only [clearSelection, List.mem_map] at he
    obtain ⟨e0, he0, hee⟩ := he
    subst hee
    simp [clearSelection, oget_oset_self]

theorem selInv_clearCanvas (s : CanvasState) : SelInv (clearCanvas s) := by
  refine ⟨?_, ?_, ?_⟩ <;> simp [clearCanvas]

/-! ### Executor-level lemmas -/

@[simp]
theorem except_bind_ok {α β : Type} (a : α) (f : α → Except Unit β) :
    (Bind.bind (Except.ok a) f) = f a := rfl

@[simp]
theorem except_bind_error {α β : Type} (e : Unit) (f : α → Except Unit β) :
    (Bind.bind (Except.error e : Except Unit α) f) = Except.error e := rfl

@[simp]
theorem except_pure_eq {α : Type} (a : α) :
    (Pure.pure a : Except Unit α) = Except.ok a := rfl

theorem pget_eq_ok (v : JVal) (key : String) (h : v ≠ .jnull) :
    pget v key = .ok (pgetD v key) := by
  cases v <;> simp [pget, pgetD] at h ⊢

theorem getOr_eq (p : JVal) (key : String) (d : JVal) (h : p ≠ .jnull) :
    getOr p key d = .ok (jsOr (pgetD p key) d) := by
  simp [getOr, pget_eq_ok p key h]

theorem getU_eq (p : JVal) (key : String) (d : JVal) (h : p ≠ .jnull) :
    getU p key d = .ok (jsOrU (pgetD p key) d) := by
  simp [getU, pget_eq_ok p key h]

theorem createCanvasElement_null (gen : Nat → String) (et : JVal) (s : CanvasState) :
    createCanvasElement gen et (some .jnull) s = .error () := by
  simp [createCanvasElement, getOr, pget]

/-- Unless `params` is `null` (which throws), `createCanvasElement` either
adds one element — built without `id` or `selected` fields — or returns
`""` leaving the state alone. -/
theorem createCanvasElement_cases (gen : Nat → String) (et : JVal)
    (ps : Option JVal) (s : CanvasState) (hps : ps ≠ some .jnull) :
    (∃ lit, createCanvasElement gen et ps s = .ok (addElement gen lit s) ∧
        oget lit "id" = none ∧ oget lit "selected" = none) ∨
    createCanvasElement gen et ps s = .ok ("", s) := by
  have hp : ps.getD (.jobj []) ≠ .jnull := by
    cases ps with
    | none => simp
    | some v => simpa using hps
  simp only [createCanvasElement, getOr_eq _ _ _ hp, getU_eq _ _ _ hp,
    except_bind_ok, except_pure_eq]
  by_cases h1 : jsStrictEq et (.jstr "circle") = true
  · rw [if_pos h1]
    exact Or.inl ⟨_, rfl, by simp [oget], by simp [oget]⟩
  rw [if_neg h1]
  by_cases h2 : jsStrictEq et (.jstr "rectangle") = true
  · rw [if_pos h2]
    exact Or.inl ⟨_, rfl, by simp [oget], by simp [oget]⟩
  rw [if_neg h2]
  by_cases h3 : jsStrictEq et (.jstr "line") = true
  · rw [if_pos h3]
    exact Or.inl ⟨_, rfl, by simp [oget], by simp [oget]⟩
  rw [if_neg h3]
  by_cases h4 : jsStrictEq et (.jstr "polygon") = true
  · rw [if_pos h4]
    exact Or.inl ⟨_, rfl, by simp [oget], by simp [oget]⟩
  rw [if_neg h4]
  by_cases h5 : jsStrictEq et (.jstr "text") = true
  · rw [if_pos h5]
    exact Or.inl ⟨_, rfl, by simp [oget], by simp [oget]⟩
  rw [if_neg h5]
  by_cases h6 : jsStrictEq et (.jstr "image") = true
  · rw [if_pos h6]
    exact Or.inl ⟨_, rfl, by simp [oget], by simp [oget]⟩
  rw [if_neg h6]
  exact Or.inr rfl

theorem selInv_exec (gen : Nat → String) (cmd : JVal) (s : CanvasState)
    (r : Option JVal) (s' : CanvasState) (hinv : SelInv s) (hgood : GoodCmd cmd)
    (hfresh : ∀ e ∈ s.elements, oget e "id" ≠ some (.jstr (gen s.nextId)))
    (hselid : s.selectedElementId ≠ .jstr (gen s.nextId))
    (hexec : executeCanvasCommand gen cmd s = .ok (r, s')) : SelInv s' := by
  cases cmd with
  | jnull =>
    simp [executeCanvasCommand, pget] at hexec
  | jbool b =>
    simp only [executeCanvasCommand, pget, except_bind_ok, except_pure_eq,
      jsStrictEqOpt, Bool.false_eq_true, if_false, Except.ok.injEq,
      Prod.mk.injEq] at hexec
    rw [← hexec.2]
    exact hinv
  | jnum q =>
    simp only [executeCanvasCommand, pget, except_bind_ok, except_pure_eq,
      jsStrictEqOpt, Bool.false_eq_true, if_false, Except.ok.injEq,
      Prod.mk.injEq] at hexec
    rw [← hexec.2]
    exact hinv
  | jstr t =>
    simp only [executeCanvasCommand, pget, except_bind_ok, except_pure_eq,
      jsStrictEqOpt, Bool.false_eq_true, if_false, Except.ok.injEq,
      Prod.mk.injEq] at hexec
    rw [← hexec.2]
    exact hinv
  | jarr xs =>
    simp only [executeCanvasCommand, pget, except_bind_ok, except_pure_eq,
      jsStrictEqOpt, Bool.false_eq_true, if_false, Except.ok.injEq,
      Prod.mk.injEq] at hexec
    rw [← hexec.2]
    exact hinv
  | jobj o =>
    simp only [executeCanvasCommand, pget, except_bind_ok, except_pure_eq] at hexec
    by_cases hc1 : jsStrictEqOpt (oget o "command") (some (.jstr "create")) = true
    · rw [if_pos hc1] at hexec
      by_cases ht : jsTruthyOpt (oget o "elementType") = true
      · rw [if_pos ht] at hexec
        split at hexec
        · next etv het =>
            by_cases hpn : oget o "params" = some .jnull
            · rw [hpn, createCanvasElement_null] at hexec
              simp at hexec
            · rcases createCanvasElement_cases gen etv (oget o "params") s hpn with
                ⟨lit, hcc, hlid, hlsel⟩ | hcc
              · rw [hcc] at hexec
                have hnew := selInv_addElement gen lit s hinv hlid hlsel hfresh hselid
                simp only [addElement] at hexec hnew
                simp only [except_bind_ok, except_pure_eq, Except.ok.injEq,
                  Prod.mk.injEq] at hexec
                rw [← hexec.2]
                exact hnew
              · rw [hcc] at hexec
                simp only [except_bind_ok, except_pure_eq, Except.ok.injEq,
                  Prod.mk.injEq] at hexec
                rw [← hexec.2]
                exact hinv
        · next het =>
            rw [het] at ht
            simp [jsTruthyOpt] at ht
      · rw [if_neg ht] at hexec
        simp only [except_pure_eq, Except.ok.injEq, Prod.mk.injEq] at hexec
        rw [← hexec.2]
        exact hinv
    · rw [if_neg hc1] at hexec
      by_cases hc2 : jsStrictEqOpt (oget o "command") (some (.jstr "update")) = true
      · rw [if_pos hc2] at hexec
        by_cases ht : jsTruthyOpt (oget o "elementId") = true
        · rw [if_pos ht] at hexec
          split at hexec
          · next eidv heid =>
              cases hfind : s.elements.find? (fun e => jsStrictEqOpt (oget e "id") (some eidv)) with
              | none =>
                simp only [updateCanvasElement, hfind, except_bind_ok,
                  except_pure_eq, Except.ok.injEq, Prod.mk.injEq] at hexec
                rw [← hexec.2]
                exact hinv
              | some e0 =>
                simp only [updateCanvasElement, hfind] at hexec
                have hg := hgood o rfl
                cases hps : oget o "params" with
                | none =>
                  rw [hps] at hexec
                  simp only [Option.getD_none, destructRest, stripKey,
                    List.filter_nil, except_bind_ok] at hexec
                  simp only [Except.ok.injEq, Prod.mk.injEq] at hexec
                  rw [← hexec.2]
                  exact selInv_updateElement eidv [] s hinv rfl rfl
                | some v =>
                  rw [hps] at hexec hg
                  cases v with
                  | jnull => simp [destructRest] at hexec
                  | jobj p =>
                    simp only [Option.getD_some, destructRest, except_bind_ok,
                      Except.ok.injEq, Prod.mk.injEq] at hexec
                    rw [← hexec.2]
                    refine selInv_updateElement eidv _ s hinv ?_ ?_
                    · rw [oget_stripKey]
                      simp [hg.1]
                    · rw [oget_stripKey]
                      simp [hg.2]
                  | jarr xs => exact absurd hg (by simp)
                  | jstr t => exact absurd hg (by simp)
                  | jbool b =>
                    simp only [Option.getD_some, destructRest, except_bind_ok,
                      Except.ok.injEq, Prod.mk.injEq] at hexec
                    rw [← hexec.2]
                    exact selInv_updateElement eidv [] s hinv rfl rfl
                  | jnum q =>
                    simp only [Option.getD_some, destructRest, except_bind_ok,
                      Except.ok.injEq, Prod.mk.injEq] at hexec
                    rw [← hexec.2]
                    exact selInv_updateElement eidv [] s hinv rfl rfl
          · next heid =>
              rw [heid] at ht
              simp [jsTruthyOpt] at ht
        · rw [if_neg ht] at hexec
          simp only [except_pure_eq, Except.ok.injEq, Prod.mk.injEq] at hexec
          rw [← hexec.2]
          exact hinv
      · rw [if_neg hc2] at hexec
        by_cases hc3 : jsStrictEqOpt (oget o "command") (some (.jstr "delete")) = true
        · rw [if_pos hc3] at hexec
          by_cases ht : jsTruthyOpt (oget o "elementId") = true
          · rw [if_pos ht] at hexec
            split at hexec
            · next eidv heid =>
                simp only [except_pure_eq, Except.ok.injEq, Prod.mk.injEq] at hexec
                rw [← hexec.2]
                exact selInv_removeElement eidv s hinv
            · next heid =>
                rw [heid] at ht
                simp [jsTruthyOpt] at ht
          · rw [if_neg ht] at hexec
            simp only [except_pure_eq, Except.ok.injEq, Prod.mk.injEq] at hexec
            rw [← hexec.2]
            exact hinv
        · rw [if_neg hc3] at hexec
          by_cases hc4 : jsStrictEqOpt (oget o "command") (some (.jstr "clear")) = true
          · rw [if_pos hc4] at hexec
            simp only [except_pure_eq, Except.ok.injEq, Prod.mk.injEq] at hexec
            rw [← hexec.2]
            exact selInv_clearCanvas s
          · rw [if_neg hc4] at hexec
            by_cases hc5 : jsStrictEqOpt (oget o "command") (some (.jstr "select")) = true
            · rw [if_pos hc5] at hexec
              by_cases ht : jsTruthyOpt (oget o "elementId") = true
              · rw [if_pos ht] at hexec
                split at hexec
                · next eidv heid =>
                    simp only [except_pure_eq, Except.ok.injEq, Prod.mk.injEq] at hexec
                    rw [← hexec.2]
                    exact selInv_selectElement eidv s hinv
                · next heid =>
                    rw [heid] at ht
                    simp [jsTruthyOpt] at ht
              · rw [if_neg ht] at hexec
                simp only [except_pure_eq, Except.ok.injEq, Prod.mk.injEq] at hexec
                rw [← hexec.2]
                exact hinv
            · rw [if_neg hc5] at hexec
              by_cases hc6 : jsStrictEqOpt (oget o "command") (some (.jstr "deselect")) = true
              · rw [if_pos hc6] at hexec
                simp only [except_pure_eq, Except.ok.injEq, Prod.mk.injEq] at hexec
                rw [← hexec.2]
                exact selInv_clearSelection s hinv
              · rw [if_neg hc6] at hexec
                simp only [except_pure_eq, Except.ok.injEq, Prod.mk.injEq] at hexec
                rw [← hexec.2]
                exact hinv

theorem reachable_selInv (gen : Nat → String) (s : CanvasState)
    (h : ReachableGood gen s) : SelInv s := by
  induction h with
  | init => exact selInv_initial
  | step_add s el _ hid hsel hfresh hselid ih =>
      exact selInv_addElement gen el s ih hid hsel hfresh hselid
  | step_update s id patch _ hpid hpsel ih =>
      exact selInv_updateElement id patch s ih hpid hpsel
  | step_remove s id _ ih => exact selInv_removeElement id s ih
  | step_select s id _ ih => exact selInv_selectElement id s ih
  | step_clearSelection s _ ih => exact selInv_clearSelection s ih
  | step_clearCanvas s _ ih => exact selInv_clearCanvas s
  | step_exec s cmd r s' _ hgood hfresh hselid hexec ih =>
      exact selInv_exec gen cmd s r s' ih hgood hfresh hselid hexec

/-- C1 (amended).  In every store state reachable from the initial state
by well-behaved store operations and executed commands (patches and
`addElement` arguments without `id`/`selected` fields, fresh generated ids):
at most one element has `selected = true`; every selected element's id
equals the non-null `selectedElementId`; no element is selected while
`selectedElementId` is null; and whenever `selectedElementId` is non-null
and equals a present element's id, that element is selected.  (The original
claim fails because `selectElement` is permissive: selecting an id that
matches no element leaves `selectedElementId` non-null with no selected
element, see the counterexample.) -/
theorem c1_selection_coherence (gen : Nat → String) (s : CanvasState)
    (h : ReachableGood gen s) :
    s.elements.countP (fun e => decide (oget e "selected" = some (.jbool true))) ≤ 1 ∧
    (∀ e ∈ s.elements, oget e "selected" = some (.jbool true) →
      (s.selectedElementId ≠ .jnull ∧ oget e "id" = some s.selectedElementId)) ∧
    (s.selectedElementId = .jnull →
      ∀ e ∈ s.elements, oget e "selected" ≠ some (.jbool true)) ∧
    (∀ e ∈ s.elements, s.selectedElementId ≠ .jnull →
      oget e "id" = some s.selectedElementId →
      oget e "selected" = some (.jbool true)) := by
  obtain ⟨h1, h2, h3⟩ := reachable_selInv gen s h
  refine ⟨?_, ?_, ?_, ?_⟩
  · refine countP_le_one_of_map_nodup s.elements (fun e => oget e "id") _
      (some s.selectedElementId) h2 ?_
    intro e he hp
    exact ((h3 e he).1 (of_decide_eq_true hp)).2
  · intro e he hsel
    exact (h3 e he).1 hsel
  · intro hnull e he hsel
    exact absurd ((h3 e he).1 hsel).1 (by simp [hnull])
  · intro e he hne hid
    exact (h3 e he).2 ⟨hne, hid⟩

/-- C1 counterexample.  Executing a `select` command for an id that
matches no element (here on the empty initial store, a reachable state)
leaves `selectedElementId` non-null (`"ghost"`) while the set of elements
with `selected = true` is empty — so the set of selected ids is *not*
`{selectedElementId}`, refuting the claim as stated. -/
theorem c1_counterexample :
    ReachableGood genDemo ⟨[], .jstr "ghost", 0⟩ ∧
    executeCanvasCommand genDemo
        (.jobj [("command", .jstr "select"), ("elementId", .jstr "ghost")])
        initialState = .ok (some (.jstr "ghost"), ⟨[], .jstr "ghost", 0⟩) ∧
    (JVal.jstr "ghost" ≠ JVal.jnull) ∧
    ([] : List JsObj).filter
        (fun e => decide (oget e "selected" = some (.jbool true))) = [] := by
  refine ⟨?_, by decide, by decide, rfl⟩
  refine ReachableGood.step_exec initialState
    (.jobj [("command", .jstr "select"), ("elementId", .jstr "ghost")])
    (some (.jstr "ghost")) _ ReachableGood.init ?_ (by simp [initialState]) (by decide)
    (by decide)
  intro o ho
  cases ho
  exact trivial

/-- C1 witness: the amended coherence conjunction holds at the concrete
reachable state obtained by adding one circle element and selecting it. -/
theorem c1_witness :
    ((selectElement (.jstr (genDemo 0))
        (addElement genDemo [("type", JVal.jstr "circle")] initialState).2).elements.countP
          (fun e => decide (oget e "selected" = some (.jbool true)))) ≤ 1 ∧
    (∀ e ∈ (selectElement (.jstr (genDemo 0))
        (addElement genDemo [("type", JVal.jstr "circle")] initialState).2).elements,
      oget e "selected" = some (.jbool true) →
      ((selectElement (.jstr (genDemo 0))
        (addElement genDemo [("type", JVal.jstr "circle")] initialState).2).selectedElementId ≠ .jnull ∧
        oget e "id" = some (selectElement (.jstr (genDemo 0))
          (addElement genDemo [("type", JVal.jstr "circle")] initialState).2).selectedElementId)) ∧
    ((selectElement (.jstr (genDemo 0))
        (addElement genDemo [("type", JVal.jstr "circle")] initialState).2).selectedElementId = .jnull →
      ∀ e ∈ (selectElement (.jstr (genDemo 0))
        (addElement genDemo [("type", JVal.jstr "circle")] initialState).2).elements,
        oget e "selected" ≠ some (.jbool true)) ∧
    (∀ e ∈ (selectElement (.jstr (genDemo 0))
        (addElement genDemo [("type", JVal.jstr "circle")] initialState).2).elements,
      (selectElement (.jstr (genDemo 0))
        (addElement genDemo [("type", JVal.jstr "circle")] initialState).2).selectedElementId ≠ .jnull →
      oget e "id" = some (selectElement (.jstr (genDemo 0))
        (addElement genDemo [("type", JVal.jstr "circle")] initialState).2).selectedElementId →
      oget e "selected" = some (.jbool true)) :=
  c1_selection_coherence genDemo _
    (ReachableGood.step_select _ _
      (ReachableGood.step_add initialState [("type", JVal.jstr "circle")]
        ReachableGood.init (by decide) (by decide) (by simp [initialState])
        (by decide)))

/-- C2 (amended).  An update command on an existing element
shallow-merges the params over that element excluding only the `type`
(variant) field: the merged element keeps its `type` even when the patch
supplies one, keeps its `id` provided the patch does not supply an `id`
field, takes the patch's value for every other supplied field and keeps its
own value for unsupplied fields; all non-matching elements are untouched.
(The original claim also promised `id` is excluded from the merge; the code
strips only `type`, so a patch carrying `id` does overwrite the element's
id — see the counterexample.) -/
theorem c2_update_merge (gen : Nat → String) (s : CanvasState)
    (o p : JsObj) (i : JVal)
    (hcmd : oget o "command" = some (.jstr "update"))
    (heid : oget o "elementId" = some i)
    (ht : jsTruthy i = true)
    (hp : oget o "params" = some (.jobj p))
    (hnd : (p.map Prod.fst).Nodup)
    (hfound : ∃ e ∈ s.elements, jsStrictEqOpt (oget e "id") (some i) = true) :
    executeCanvasCommand gen (.jobj o) s
      = .ok (some i, updateElement i (stripKey p "type") s) ∧
    (updateElement i (stripKey p "type") s).selectedElementId = s.selectedElementId ∧
    (updateElement i (stripKey p "type") s).nextId = s.nextId ∧
    List.Forall₂ (fun e e2 =>
        (jsStrictEqOpt (oget e "id") (some i) = false → e2 = e) ∧
        (jsStrictEqOpt (oget e "id") (some i) = true →
          oget e2 "type" = oget e "type" ∧
          (oget p "id" = none → oget e2 "id" = oget e "id") ∧
          ∀ k, k ≠ "type" →
            oget e2 k = match oget p k with
              | some v => some v
              | none => oget e k))
      s.elements (updateElement i (stripKey p "type") s).elements := by
  have hndStrip : ((stripKey p "type").map Prod.fst).Nodup :=
    List.Nodup.sublist (List.Sublist.map _ (List.filter_sublist _)) hnd
  refine ⟨?_, rfl, rfl, ?_⟩
  · simp only [executeCanvasCommand, pget, except_bind_ok, except_pure_eq, hcmd]
    rw [if_neg (by decide), if_pos (by decide)]
    rw [heid]
    have htt : jsTruthyOpt (some i) = true := ht
    rw [if_pos htt]
    show (match some i with
      | some eidv => Bind.bind (updateCanvasElement eidv (oget o "params") s)
          (fun s2 => Pure.pure (some eidv, s2))
      | none => Pure.pure (none, s)) = _
    obtain ⟨e0, he0, hpe0⟩ := hfound
    cases hfind : s.elements.find? (fun e => jsStrictEqOpt (oget e "id") (some i)) with
    | none => exact absurd hpe0 (List.find?_eq_none.mp hfind e0 he0)
    | some e1 =>
      simp only [updateCanvasElement, hfind, hp, Option.getD_some, destructRest,
        except_bind_ok, except_pure_eq]
  · show List.Forall₂ _ s.elements (s.elements.map _)
    rw [List.forall₂_map_right_iff]
    rw [List.forall₂_same]
    intro e he
    constructor
    · intro hfalse
      simp [hfalse]
    · intro htrue
      rw [if_pos htrue]
      refine ⟨?_, ?_, ?_⟩
      · refine oget_omerge_of_none _ _ _ ?_
        rw [oget_stripKey]
        simp
      · intro hpid
        refine oget_omerge_of_none _ _ _ ?_
        rw [oget_stripKey]
        simp [hpid]
      · intro k hk
        cases hpk : oget p k with
        | none =>
          refine oget_omerge_of_none _ _ _ ?_
          rw [oget_stripKey]
          simp [hpk]
        | some v =>
          refine oget_omerge_of_some _ _ _ _ hndStrip ?_
          rw [oget_stripKey]
          simp [hk, hpk]

/-- C2 counterexample.  Creating a circle (id `"elem-0"`) and then
executing an update whose params supply `{ id: "evil" }` changes the
element's `id` to `"evil"`: the merge excludes only `type`, not `id`,
refuting the claim that `id` is excluded even when the patch supplies it. -/
theorem c2_counterexample :
    (Except.map (fun rs => rs.2.elements.map (fun e => oget e "id"))
      (Except.bind
        (executeCanvasCommand genDemo
          (.jobj [("command", .jstr "create"), ("elementType", .jstr "circle")])
          initialState)
        (fun rs => executeCanvasCommand genDemo
          (.jobj [("command", .jstr "update"), ("elementId", .jstr "elem-0"),
                  ("params", .jobj [("id", .jstr "evil")])])
          rs.2)))
      = .ok [some (.jstr "evil")] := by decide

/-- C2 witness: the amended merge description holds concretely for a
one-element store updated with a `color` patch. -/
theorem c2_witness :
    executeCanvasCommand genDemo
        (.jobj [("command", .jstr "update"), ("elementId", .jstr "a"),
                ("params", .jobj [("color", .jstr "red")])])
        ⟨[[("id", .jstr "a"), ("type", .jstr "circle"), ("color", .jstr "blue")]], .jnull, 1⟩
      = .ok (some (.jstr "a"),
          updateElement (.jstr "a") (stripKey [("color", JVal.jstr "red")] "type")
            ⟨[[("id", .jstr "a"), ("type", .jstr "circle"), ("color", .jstr "blue")]], .jnull, 1⟩) ∧
    (updateElement (.jstr "a") (stripKey [("color", JVal.jstr "red")] "type")
        ⟨[[("id", .jstr "a"), ("type", .jstr "circle"), ("color", .jstr "blue")]], .jnull, 1⟩).selectedElementId
      = (⟨[[("id", .jstr "a"), ("type", .jstr "circle"), ("color", .jstr "blue")]], .jnull, 1⟩ : CanvasState).selectedElementId ∧
    (updateElement (.jstr "a") (stripKey [("color", JVal.jstr "red")] "type")
        ⟨[[("id", .jstr "a"), ("type", .jstr "circle"), ("color", .jstr "blue")]], .jnull, 1⟩).nextId
      = (⟨[[("id", .jstr "a"), ("type", .jstr "circle"), ("color", .jstr "blue")]], .jnull, 1⟩ : CanvasState).nextId ∧
    List.Forall₂ (fun e e2 =>
        (jsStrictEqOpt (oget e "id") (some (.jstr "a")) = false → e2 = e) ∧
        (jsStrictEqOpt (oget e "id") (some (.jstr "a")) = true →
          oget e2 "type" = oget e "type" ∧
          (oget [("color", JVal.jstr "red")] "id" = none → oget e2 "id" = oget e "id") ∧
          ∀ k, k ≠ "type" →
            oget e2 k = match oget [("color", JVal.jstr "red")] k with
              | some v => some v
              | none => oget e k))
      (⟨[[("id", .jstr "a"), ("type", .jstr "circle"), ("color", .jstr "blue")]], .jnull, 1⟩ : CanvasState).elements
      (updateElement (.jstr "a") (stripKey [("color", JVal.jstr "red")] "type")
        ⟨[[("id", .jstr "a"), ("type", .jstr "circle"), ("color", .jstr "blue")]], .jnull, 1⟩).elements :=
  c2_update_merge genDemo
    ⟨[[("id", .jstr "a"), ("type", .jstr "circle"), ("color", .jstr "blue")]], .jnull, 1⟩
    [("command", .jstr "update"), ("elementId", .jstr "a"),
     ("params", .jobj [("color", .jstr "red")])]
    [("color", JVal.jstr "red")] (.jstr "a")
    (by decide) (by decide) (by decide) (by decide) (by decide) (by decide)

/-- C3 (amended).  An update command whose `elementId` is present and
truthy but matches no element leaves the store unchanged and returns the
given `elementId` itself (the not-found condition is only logged, not
reflected in the returned value; no distinct failure marker is produced).
For the scenario input `/canvas update bogus-id {"color": "#00ff00"}` the
inline grammar captures `bogus` as `elementType` and produces no
`elementId` at all, so execution returns `undefined` (the missing-id
failure) and leaves the store unchanged. -/
theorem c3_update_notfound (gen : Nat → String) (s : CanvasState)
    (o : JsObj) (i : JVal)
    (hcmd : oget o "command" = some (.jstr "update"))
    (heid : oget o "elementId" = some i)
    (ht : jsTruthy i = true)
    (hnone : ∀ e ∈ s.elements, jsStrictEqOpt (oget e "id") (some i) = false) :
    executeCanvasCommand gen (.jobj o) s = .ok (some i, s) ∧
    parseCanvasCommands "/canvas update bogus-id \x7b\"color\": \"#00ff00\"\x7d"
      = [.jobj [("command", .jstr "update"), ("elementType", .jstr "bogus"),
                ("params", .jobj [])]] ∧
    executeCanvasCommand genDemo
        (.jobj [("command", .jstr "update"), ("elementType", .jstr "bogus"),
                ("params", .jobj [])]) initialState
      = .ok (none, initialState) := by
  refine ⟨?_, by decide, by decide⟩
  simp only [executeCanvasCommand, pget, except_bind_ok, except_pure_eq, hcmd]
  rw [if_neg (by decide), if_pos (by decide)]
  rw [heid]
  have htt : jsTruthyOpt (some i) = true := ht
  rw [if_pos htt]
  have hfind : s.elements.find? (fun e => jsStrictEqOpt (oget e "id") (some i)) = none := by
    rw [List.find?_eq_none]
    intro e he
    simp [hnone e he]
  show (match some i with
    | some eidv => Bind.bind (updateCanvasElement eidv (oget o "params") s)
        (fun s2 => Pure.pure (some eidv, s2))
    | none => Pure.pure (none, s)) = _
  simp only [updateCanvasElement, hfind, except_bind_ok, except_pure_eq]

/-- C3 counterexample.  Executing an update for the never-created id
`"bogus-id"` (supplied via the fenced-block command form, the only form
that can carry an `elementId`) returns `some "bogus-id"` — the element id
itself, indistinguishable from success — rather than any failure marker,
refuting the claim that the executor returns `NotFound` and not an element
id.  The store is unchanged. -/
theorem c3_counterexample :
    executeCanvasCommand genDemo
        (.jobj [("command", .jstr "update"), ("elementId", .jstr "bogus-id"),
                ("params", .jobj [("color", .jstr "#00ff00")])])
        initialState
      = .ok (some (.jstr "bogus-id"), initialState) ∧
    (some (JVal.jstr "bogus-id") ≠ (none : Option JVal)) := by
  exact ⟨by decide, by decide⟩

/-- C3 witness: the amended behaviour at the concrete bogus-id update. -/
theorem c3_witness :
    executeCanvasCommand genDemo
        (.jobj [("command", .jstr "update"), ("elementId", .jstr "bogus-id"),
                ("params", .jobj [("color", .jstr "#00ff00")])])
        initialState
      = .ok (some (.jstr "bogus-id"), initialState) ∧
    parseCanvasCommands "/canvas update bogus-id \x7b\"color\": \"#00ff00\"\x7d"
      = [.jobj [("command", .jstr "update"), ("elementType", .jstr "bogus"),
                ("params", .jobj [])]] ∧
    executeCanvasCommand genDemo
        (.jobj [("command", .jstr "update"), ("elementType", .jstr "bogus"),
                ("params", .jobj [])]) initialState
      = .ok (none, initialState) :=
  c3_update_notfound genDemo initialState
    [("command", .jstr "update"), ("elementId", .jstr "bogus-id"),
     ("params", .jobj [("color", .jstr "#00ff00")])]
    (.jstr "bogus-id") (by decide) (by decide) (by decide) (by simp [initialState])

theorem jsStrictEq_jstr_eq_false (v : JVal) (t : String) (h : v ≠ .jstr t) :
    jsStrictEq v (.jstr t) = false := by
  cases v with
  | jstr u =>
    simp only [jsStrictEq, beq_eq_false_iff_ne, ne_eq]
    intro hh
    exact h (hh ▸ rfl)
  | jnull => rfl
  | jbool b => rfl
  | jnum q => rfl
  | jarr xs => rfl
  | jobj fs => rfl

theorem exec_create_dispatch (gen : Nat → String) (s : CanvasState)
    (o : JsObj) (etv : JVal)
    (hcmd : oget o "command" = some (.jstr "create"))
    (het : oget o "elementType" = some etv) (ht : jsTruthy etv = true) :
    executeCanvasCommand gen (.jobj o) s
      = Except.map (fun d => (some (.jstr d.1), d.2))
          (createCanvasElement gen etv (oget o "params") s) := by
  simp only [executeCanvasCommand, pget, except_bind_ok, except_pure_eq, hcmd]
  rw [if_pos (by decide)]
  rw [het]
  have htt : jsTruthyOpt (some etv) = true := ht
  rw [if_pos htt]
  show Except.bind (createCanvasElement gen etv (oget o "params") s)
    (fun d => Except.ok (some (JVal.jstr d.1), d.2)) = _
  cases createCanvasElement gen etv (oget o "params") s with
  | ok d => rfl
  | error e => rfl

/-- Sufficiency half of the throw analysis: a non-null command without
null params always executes to a value. -/
theorem executor_returns_of_params_ne_null (gen : Nat → String) (cmd : JVal)
    (s : CanvasState) (hnn : cmd ≠ .jnull)
    (hpnn : ∀ o, cmd = .jobj o → oget o "params" ≠ some .jnull) :
    ∃ r s2, executeCanvasCommand gen cmd s = .ok (r, s2) := by
  cases cmd with
  | jnull => exact absurd rfl hnn
  | jbool b => exact ⟨none, s, by simp [executeCanvasCommand, pget, jsStrictEqOpt]⟩
  | jnum q => exact ⟨none, s, by simp [executeCanvasCommand, pget, jsStrictEqOpt]⟩
  | jstr t => exact ⟨none, s, by simp [executeCanvasCommand, pget, jsStrictEqOpt]⟩
  | jarr xs => exact ⟨none, s, by simp [executeCanvasCommand, pget, jsStrictEqOpt]⟩
  | jobj o =>
    have hp := hpnn o rfl
    simp only [executeCanvasCommand, pget, except_bind_ok, except_pure_eq]
    by_cases hc1 : jsStrictEqOpt (oget o "command") (some (.jstr "create")) = true
    · rw [if_pos hc1]
      by_cases ht : jsTruthyOpt (oget o "elementType") = true
      · rw [if_pos ht]
        cases het : oget o "elementType" with
        | none =>
          rw [het] at ht
          simp [jsTruthyOpt] at ht
        | some etv =>
          show ∃ r s2, Except.bind (createCanvasElement gen etv (oget o "params") s)
            (fun d => Except.ok (some (.jstr d.1), d.2)) = Except.ok (r, s2)
          rcases createCanvasElement_cases gen etv (oget o "params") s hp with
            ⟨lit, hcc, -, -⟩ | hcc
          · rw [hcc]
            exact ⟨_, _, rfl⟩
          · rw [hcc]
            exact ⟨_, _, rfl⟩
      · rw [if_neg ht]
        exact ⟨_, _, rfl⟩
    · rw [if_neg hc1]
      by_cases hc2 : jsStrictEqOpt (oget o "command") (some (.jstr "update")) = true
      · rw [if_pos hc2]
        by_cases ht : jsTruthyOpt (oget o "elementId") = true
        · rw [if_pos ht]
          cases heid : oget o "elementId" with
          | none =>
            rw [heid] at ht
            simp [jsTruthyOpt] at ht
          | some eidv =>
            show ∃ r s2, Except.bind (updateCanvasElement eidv (oget o "params") s)
              (fun d => Except.ok (some eidv, d)) = Except.ok (r, s2)
            cases hfind : s.elements.find?
                (fun e => jsStrictEqOpt (oget e "id") (some eidv)) with
            | none =>
              simp only [updateCanvasElement, hfind]
              exact ⟨_, _, rfl⟩
            | some e0 =>
              simp only [updateCanvasElement, hfind]
              cases hps : oget o "params" with
              | none => exact ⟨_, _, rfl⟩
              | some v =>
                cases v with
                | jnull => exact absurd hps hp
                | jbool b => exact ⟨_, _, rfl⟩
                | jnum q => exact ⟨_, _, rfl⟩
                | jstr t => exact ⟨_, _, rfl⟩
                | jarr xs => exact ⟨_, _, rfl⟩
                | jobj p => exact ⟨_, _, rfl⟩
        · rw [if_neg ht]
          exact ⟨_, _, rfl⟩
      · rw [if_neg hc2]
        by_cases hc3 : jsStrictEqOpt (oget o "command") (some (.jstr "delete")) = true
        · rw [if_pos hc3]
          by_cases ht : jsTruthyOpt (oget o "elementId") = true
          · rw [if_pos ht]
            cases heid : oget o "elementId" with
            | none =>
              rw [heid] at ht
              simp [jsTruthyOpt] at ht
            | some eidv =>
              exact ⟨_, _, rfl⟩
          · rw [if_neg ht]
            exact ⟨_, _, rfl⟩
        · rw [if_neg hc3]
          by_cases hc4 : jsStrictEqOpt (oget o "command") (some (.jstr "clear")) = true
          · rw [if_pos hc4]
            exact ⟨_, _, rfl⟩
          · rw [if_neg hc4]
            by_cases hc5 : jsStrictEqOpt (oget o "command") (some (.jstr "select")) = true
            · rw [if_pos hc5]
              by_cases ht : jsTruthyOpt (oget o "elementId") = true
              · rw [if_pos ht]
                cases heid : oget o "elementId" with
                | none =>
                  rw [heid] at ht
                  simp [jsTruthyOpt] at ht
                | some eidv =>
                  exact ⟨_, _, rfl⟩
              · rw [if_neg ht]
                exact ⟨_, _, rfl⟩
            · rw [if_neg hc5]
              by_cases hc6 : jsStrictEqOpt (oget o "command") (some (.jstr "deselect")) = true
              · rw [if_pos hc6]
                exact ⟨_, _, rfl⟩
              · rw [if_neg hc6]
                exact ⟨_, _, rfl⟩

/-- C4 (amended).  `parseCanvasCommands` is a total function (every
`JSON.parse` in it is guarded, so no exception escapes the parser), and
`executeCanvasCommand` returns a value — never throws — for every command
value that is not `null` and whose `params` field, when the command is an
object, is not `null`.  That condition is sufficient but not necessary: a
null-params update whose `elementId` matches no element still returns the
id (the not-found return precedes the destructuring), and a null-params
create without a truthy `elementType` returns `undefined` (the guard
precedes the params reads).  The executor does throw for a `null` command,
for a create command with truthy `elementType` and `null` params, and for
an update command with truthy `elementId` and `null` params when a
matching element exists.  (The original unrestricted claim fails: the
parser hands such values over unvalidated and a TypeError crosses the
executor boundary — see the counterexample.) -/
theorem c4_executor_no_throw :
    (∀ (gen : Nat → String) (cmd : JVal) (s : CanvasState), cmd ≠ .jnull →
      (∀ o, cmd = .jobj o → oget o "params" ≠ some .jnull) →
      ∃ r s2, executeCanvasCommand gen cmd s = .ok (r, s2)) ∧
    (∀ (gen : Nat → String) (s : CanvasState),
      executeCanvasCommand gen .jnull s = .error ()) ∧
    (∀ (gen : Nat → String) (s : CanvasState) (o : JsObj) (etv : JVal),
      oget o "command" = some (.jstr "create") →
      oget o "elementType" = some etv → jsTruthy etv = true →
      oget o "params" = some .jnull →
      executeCanvasCommand gen (.jobj o) s = .error ()) ∧
    (∀ (gen : Nat → String) (s : CanvasState) (o : JsObj) (i : JVal),
      oget o "command" = some (.jstr "update") →
      oget o "elementId" = some i → jsTruthy i = true →
      oget o "params" = some .jnull →
      (∃ e ∈ s.elements, jsStrictEqOpt (oget e "id") (some i) = true) →
      executeCanvasCommand gen (.jobj o) s = .error ()) ∧
    (∀ (gen : Nat → String) (s : CanvasState) (o : JsObj) (i : JVal),
      oget o "command" = some (.jstr "update") →
      oget o "elementId" = some i → jsTruthy i = true →
      oget o "params" = some .jnull →
      (∀ e ∈ s.elements, jsStrictEqOpt (oget e "id") (some i) = false) →
      executeCanvasCommand gen (.jobj o) s = .ok (some i, s)) ∧
    (∀ (gen : Nat → String) (s : CanvasState) (o : JsObj),
      oget o "command" = some (.jstr "create") →
      jsTruthyOpt (oget o "elementType") = false →
      oget o "params" = some .jnull →
      executeCanvasCommand gen (.jobj o) s = .ok (none, s)) := by
  refine ⟨executor_returns_of_params_ne_null, ?_, ?_, ?_, ?_, ?_⟩
  · intro gen s
    rfl
  · intro gen s o etv hcmd het ht hp
    rw [exec_create_dispatch gen s o etv hcmd het ht, hp, createCanvasElement_null]
    rfl
  · intro gen s o i hcmd heid ht hp hfound
    simp only [executeCanvasCommand, pget, except_bind_ok, except_pure_eq, hcmd]
    rw [if_neg (by decide), if_pos (by decide), heid]
    have htt : jsTruthyOpt (some i) = true := ht
    rw [if_pos htt]
    show (match some i with
      | some eidv => Bind.bind (updateCanvasElement eidv (oget o "params") s)
          (fun s2 => Pure.pure (some eidv, s2))
      | none => Pure.pure (none, s)) = _
    obtain ⟨e0, he0, hpe0⟩ := hfound
    cases hfind : s.elements.find? (fun e => jsStrictEqOpt (oget e "id") (some i)) with
    | none => exact absurd hpe0 (List.find?_eq_none.mp hfind e0 he0)
    | some e1 =>
      simp only [updateCanvasElement, hfind, hp, Option.getD_some, destructRest,
        except_bind_error]
  · intro gen s o i hcmd heid ht hp hnone
    simp only [executeCanvasCommand, pget, except_bind_ok, except_pure_eq, hcmd]
    rw [if_neg (by decide), if_pos (by decide), heid]
    have htt : jsTruthyOpt (some i) = true := ht
    rw [if_pos htt]
    have hfind : s.elements.find? (fun e => jsStrictEqOpt (oget e "id") (some i)) = none := by
      rw [List.find?_eq_none]
      intro e he
      simp [hnone e he]
    show (match some i with
      | some eidv => Bind.bind (updateCanvasElement eidv (oget o "params") s)
          (fun s2 => Pure.pure (some eidv, s2))
      | none => Pure.pure (none, s)) = _
    simp only [updateCanvasElement, hfind, except_bind_ok, except_pure_eq]
  · intro gen s o hcmd hfal hp
    simp only [executeCanvasCommand, pget, except_bind_ok, except_pure_eq, hcmd]
    rw [if_pos (by decide), if_neg (by simp [hfal])]

/-- C4 counterexample.  The parser hands over, unvalidated from a fenced
JSON block, a create command whose `params` is `null`; executing it throws
a TypeError (reading `params.position` on `null`), so an exception does
cross the executor's public boundary, refuting the claim. -/
theorem c4_counterexample :
    parseCanvasCommands
        "```\n\x7b\"command\": \"create\", \"elementType\": \"circle\", \"params\": null\x7d\n```"
      = [.jobj [("command", .jstr "create"), ("elementType", .jstr "circle"),
                ("params", .jnull)]] ∧
    executeCanvasCommand genDemo
        (.jobj [("command", .jstr "create"), ("elementType", .jstr "circle"),
                ("params", .jnull)]) initialState
      = .error () := by
  exact ⟨by decide, by decide⟩

/-- C4 witness: a well-formed command (object, no `null` params)
executes to a value. -/
theorem c4_witness :
    ∃ r s2, executeCanvasCommand genDemo (.jobj [("command", .jstr "clear")])
      initialState = .ok (r, s2) :=
  c4_executor_no_throw.1 genDemo (.jobj [("command", .jstr "clear")]) initialState
    (by decide) (by intro o h; cases h; decide)

/-- C5 (amended).  A create command with a known `elementType`
dispatches to `createCanvasElement`, which appends exactly one element
whose id is the freshly generated one and whose every field is: the
caller's value when the field is supplied *and truthy* (for the
`||`-defaulted fields: position, rotation, scale, color, radius, width,
height, points, lineWidth, text, fontSize, fontColor, url), respectively
the caller's value whenever the field is supplied at all (for `filled` and
`opacity`, which use an `!== undefined` check); otherwise the variant's
fixed default (circle radius=1, filled=true, lineWidth=1; rectangle
width=2, height=1; line points=[[0,0,0],[1,1,0]]; polygon points=the unit
square; text text="Text", fontSize=1; image url="/logo.jpg", width=3,
height=2; shared position=[0,0,0], rotation=[0,0,0], scale=[1,1,1],
color="#ffffff", opacity=1).  (The original claim — caller value whenever
the field is merely *present* — fails for present-but-falsy values such as
`radius: 0`, which the `||` idiom replaces with the default; see the
counterexample.) -/
theorem c5_create_defaults :
    (∀ (gen : Nat → String) (s : CanvasState) (o : JsObj) (etv : JVal),
      oget o "command" = some (.jstr "create") →
      oget o "elementType" = some etv → jsTruthy etv = true →
      executeCanvasCommand gen (.jobj o) s
        = Except.map (fun d => (some (.jstr d.1), d.2))
            (createCanvasElement gen etv (oget o "params") s)) ∧
    (∀ (gen : Nat → String) (s : CanvasState) (p : JsObj),
      ∃ el, createCanvasElement gen (.jstr "circle") (some (.jobj p)) s
          = .ok (gen s.nextId, ⟨s.elements ++ [el], s.selectedElementId, s.nextId + 1⟩) ∧
        oget el "id" = some (.jstr (gen s.nextId)) ∧
        oget el "type" = some (.jstr "circle") ∧
        oget el "position" = some (jsOr (oget p "position") (.jarr [.jnum 0, .jnum 0, .jnum 0])) ∧
        oget el "rotation" = some (jsOr (oget p "rotation") (.jarr [.jnum 0, .jnum 0, .jnum 0])) ∧
        oget el "scale" = some (jsOr (oget p "scale") (.jarr [.jnum 1, .jnum 1, .jnum 1])) ∧
        oget el "color" = some (jsOr (oget p "color") (.jstr "#ffffff")) ∧
        oget el "opacity" = some (jsOrU (oget p "opacity") (.jnum 1)) ∧
        oget el "radius" = some (jsOr (oget p "radius") (.jnum 1)) ∧
        oget el "filled" = some (jsOrU (oget p "filled") (.jbool true)) ∧
        oget el "lineWidth" = some (jsOr (oget p "lineWidth") (.jnum 1))) ∧
    (∀ (gen : Nat → String) (s : CanvasState) (p : JsObj),
      ∃ el, createCanvasElement gen (.jstr "rectangle") (some (.jobj p)) s
          = .ok (gen s.nextId, ⟨s.elements ++ [el], s.selectedElementId, s.nextId + 1⟩) ∧
        oget el "id" = some (.jstr (gen s.nextId)) ∧
        oget el "type" = some (.jstr "rectangle") ∧
        oget el "position" = some (jsOr (oget p "position") (.jarr [.jnum 0, .jnum 0, .jnum 0])) ∧
        oget el "rotation" = some (jsOr (oget p "rotation") (.jarr [.jnum 0, .jnum 0, .jnum 0])) ∧
        oget el "scale" = some (jsOr (oget p "scale") (.jarr [.jnum 1, .jnum 1, .jnum 1])) ∧
        oget el "color" = some (jsOr (oget p "color") (.jstr "#ffffff")) ∧
        oget el "opacity" = some (jsOrU (oget p "opacity") (.jnum 1)) ∧
        oget el "width" = some (jsOr (oget p "width") (.jnum 2)) ∧
        oget el "height" = some (jsOr (oget p "height") (.jnum 1)) ∧
        oget el "filled" = some (jsOrU (oget p "filled") (.jbool true)) ∧
        oget el "lineWidth" = some (jsOr (oget p "lineWidth") (.jnum 1))) ∧
    (∀ (gen : Nat → String) (s : CanvasState) (p : JsObj),
      ∃ el, createCanvasElement gen (.jstr "line") (some (.jobj p)) s
          = .ok (gen s.nextId, ⟨s.elements ++ [el], s.selectedElementId, s.nextId + 1⟩) ∧
        oget el "id" = some (.jstr (gen s.nextId)) ∧
        oget el "type" = some (.jstr "line") ∧
        oget el "position" = some (jsOr (oget p "position") (.jarr [.jnum 0, .jnum 0, .jnum 0])) ∧
        oget el "rotation" = some (jsOr (oget p "rotation") (.jarr [.jnum 0, .jnum 0, .jnum 0])) ∧
        oget el "scale" = some (jsOr (oget p "scale") (.jarr [.jnum 1, .jnum 1, .jnum 1])) ∧
        oget el "color" = some (jsOr (oget p "color") (.jstr "#ffffff")) ∧
        oget el "opacity" = some (jsOrU (oget p "opacity") (.jnum 1)) ∧
        oget el "points" = some (jsOr (oget p "points")
          (.jarr [.jarr [.jnum 0, .jnum 0, .jnum 0], .jarr [.jnum 1, .jnum 1, .jnum 0]])) ∧
        oget el "lineWidth" = some (jsOr (oget p "lineWidth") (.jnum 1))) ∧
    (∀ (gen : Nat → String) (s : CanvasState) (p : JsObj),
      ∃ el, createCanvasElement gen (.jstr "polygon") (some (.jobj p)) s
          = .ok (gen s.nextId, ⟨s.elements ++ [el], s.selectedElementId, s.nextId + 1⟩) ∧
        oget el "id" = some (.jstr (gen s.nextId)) ∧
        oget el "type" = some (.jstr "polygon") ∧
        oget el "position" = some (jsOr (oget p "position") (.jarr [.jnum 0, .jnum 0, .jnum 0])) ∧
        oget el "rotation" = some (jsOr (oget p "rotation") (.jarr [.jnum 0, .jnum 0, .jnum 0])) ∧
        oget el "scale" = some (jsOr (oget p "scale") (.jarr [.jnum 1, .jnum 1, .jnum 1])) ∧
        oget el "color" = some (jsOr (oget p "color") (.jstr "#ffffff")) ∧
        oget el "opacity" = some (jsOrU (oget p "opacity") (.jnum 1)) ∧
        oget el "points" = some (jsOr (oget p "points")
          (.jarr [.jarr [.jnum 0, .jnum 0, .jnum 0], .jarr [.jnum 1, .jnum 0, .jnum 0],
                  .jarr [.jnum 1, .jnum 1, .jnum 0], .jarr [.jnum 0, .jnum 1, .jnum 0]])) ∧
        oget el "filled" = some (jsOrU (oget p "filled") (.jbool true)) ∧
        oget el "lineWidth" = some (jsOr (oget p "lineWidth") (.jnum 1))) ∧
    (∀ (gen : Nat → String) (s : CanvasState) (p : JsObj),
      ∃ el, createCanvasElement gen (.jstr "text") (some (.jobj p)) s
          = .ok (gen s.nextId, ⟨s.elements ++ [el], s.selectedElementId, s.nextId + 1⟩) ∧
        oget el "id" = some (.jstr (gen s.nextId)) ∧
        oget el "type" = some (.jstr "text") ∧
        oget el "position" = some (jsOr (oget p "position") (.jarr [.jnum 0, .jnum 0, .jnum 0])) ∧
        oget el "rotation" = some (jsOr (oget p "rotation") (.jarr [.jnum 0, .jnum 0, .jnum 0])) ∧
        oget el "scale" = some (jsOr (oget p "scale") (.jarr [.jnum 1, .jnum 1, .jnum 1])) ∧
        oget el "color" = some (jsOr (oget p "color") (.jstr "#ffffff")) ∧
        oget el "opacity" = some (jsOrU (oget p "opacity") (.jnum 1)) ∧
        oget el "text" = some (jsOr (oget p "text") (.jstr "Text")) ∧
        oget el "fontSize" = some (jsOr (oget p "fontSize") (.jnum 1)) ∧
        oget el "fontColor" = some (jsOr (oget p "fontColor")
          (jsOr (oget p "color") (.jstr "#ffffff")))) ∧
    (∀ (gen : Nat → String) (s : CanvasState) (p : JsObj),
      ∃ el, createCanvasElement gen (.jstr "image") (some (.jobj p)) s
          = .ok (gen s.nextId, ⟨s.elements ++ [el], s.selectedElementId, s.nextId + 1⟩) ∧
        oget el "id" = some (.jstr (gen s.nextId)) ∧
        oget el "type" = some (.jstr "image") ∧
        oget el "position" = some (jsOr (oget p "position") (.jarr [.jnum 0, .jnum 0, .jnum 0])) ∧
        oget el "rotation" = some (jsOr (oget p "rotation") (.jarr [.jnum 0, .jnum 0, .jnum 0])) ∧
        oget el "scale" = some (jsOr (oget p "scale") (.jarr [.jnum 1, .jnum 1, .jnum 1])) ∧
        oget el "color" = some (jsOr (oget p "color") (.jstr "#ffffff")) ∧
        oget el "opacity" = some (jsOrU (oget p "opacity") (.jnum 1)) ∧
        oget el "url" = some (jsOr (oget p "url") (.jstr "/logo.jpg")) ∧
        oget el "width" = some (jsOr (oget p "width") (.jnum 3)) ∧
        oget el "height" = some (jsOr (oget p "height") (.jnum 2))) := by
  refine ⟨?_, ?_, ?_, ?_, ?_, ?_, ?_⟩
  · intro gen s o etv hcmd het ht
    simp only [executeCanvasCommand, pget, except_bind_ok, except_pure_eq, hcmd]
    rw [if_pos (by decide)]
    rw [het]
    have htt : jsTruthyOpt (some etv) = true := ht
    rw [if_pos htt]
    show Except.bind (createCanvasElement gen etv (oget o "params") s)
      (fun d => Except.ok (some (JVal.jstr d.1), d.2)) = _
    cases createCanvasElement gen etv (oget o "params") s with
    | ok d => rfl
    | error e => rfl
  · intro gen s p
    refine ⟨_, rfl, ?_, ?_, ?_, ?_, ?_, ?_, ?_, ?_, ?_, ?_⟩ <;>
      simp [oset, oget, pgetD]
  · intro gen s p
    refine ⟨_, rfl, ?_, ?_, ?_, ?_, ?_, ?_, ?_, ?_, ?_, ?_, ?_⟩ <;>
      simp [oset, oget, pgetD]
  · intro gen s p
    refine ⟨_, rfl, ?_, ?_, ?_, ?_, ?_, ?_, ?_, ?_⟩ <;>
      simp [oset, oget, pgetD]
  · intro gen s p
    refine ⟨_, rfl, ?_, ?_, ?_, ?_, ?_, ?_, ?_, ?_, ?_⟩ <;>
      simp [oset, oget, pgetD]
  · intro gen s p
    refine ⟨_, rfl, ?_, ?_, ?_, ?_, ?_, ?_, ?_, ?_, ?_⟩ <;>
      simp [oset, oget, pgetD]
  · intro gen s p
    refine ⟨_, rfl, ?_, ?_, ?_, ?_, ?_, ?_, ?_, ?_, ?_⟩ <;>
      simp [oset, oget, pgetD]

/-- C5 counterexample.  The caller supplies `radius: 0` — the field is
present in `params` — yet the created circle has `radius = 1`, the default:
the `params.radius || 1` idiom discards present-but-falsy values, refuting
the claim that every supplied field value is used. -/
theorem c5_counterexample :
    (Except.map (fun rs => rs.2.elements.map (fun e => oget e "radius"))
      (executeCanvasCommand genDemo
        (.jobj [("command", .jstr "create"), ("elementType", .jstr "circle"),
                ("params", .jobj [("radius", .jnum 0)])]) initialState))
      = .ok [some (.jnum 1)] ∧
    (JVal.jnum 0 ≠ JVal.jnum 1) := by
  exact ⟨by decide, by decide⟩

/-- C5 witness: the claim's own scenario — create a circle with
radius 2 — instantiating the circle clause of the amended theorem. -/
theorem c5_witness :
    ∃ el, createCanvasElement genDemo (.jstr "circle")
        (some (.jobj [("radius", JVal.jnum 2), ("color", JVal.jstr "#ff0000")]))
        initialState
        = .ok (genDemo initialState.nextId,
            ⟨initialState.elements ++ [el], initialState.selectedElementId,
             initialState.nextId + 1⟩) ∧
      oget el "id" = some (.jstr (genDemo initialState.nextId)) ∧
      oget el "type" = some (.jstr "circle") ∧
      oget el "position" = some (jsOr (oget [("radius", JVal.jnum 2), ("color", JVal.jstr "#ff0000")] "position") (.jarr [.jnum 0, .jnum 0, .jnum 0])) ∧
      oget el "rotation" = some (jsOr (oget [("radius", JVal.jnum 2), ("color", JVal.jstr "#ff0000")] "rotation") (.jarr [.jnum 0, .jnum 0, .jnum 0])) ∧
      oget el "scale" = some (jsOr (oget [("radius", JVal.jnum 2), ("color", JVal.jstr "#ff0000")] "scale") (.jarr [.jnum 1, .jnum 1, .jnum 1])) ∧
      oget el "color" = some (jsOr (oget [("radius", JVal.jnum 2), ("color", JVal.jstr "#ff0000")] "color") (.jstr "#ffffff")) ∧
      oget el "opacity" = some (jsOrU (oget [("radius", JVal.jnum 2), ("color", JVal.jstr "#ff0000")] "opacity") (.jnum 1)) ∧
      oget el "radius" = some (jsOr (oget [("radius", JVal.jnum 2), ("color", JVal.jstr "#ff0000")] "radius") (.jnum 1)) ∧
      oget el "filled" = some (jsOrU (oget [("radius", JVal.jnum 2), ("color", JVal.jstr "#ff0000")] "filled") (.jbool true)) ∧
      oget el "lineWidth" = some (jsOr (oget [("radius", JVal.jnum 2), ("color", JVal.jstr "#ff0000")] "lineWidth") (.jnum 1)) :=
  c5_create_defaults.2.1 genDemo initialState
    [("radius", JVal.jnum 2), ("color", JVal.jstr "#ff0000")]

/-- C6 (amended).  A create command whose truthy `elementType` is none
of circle, rectangle, line, polygon, text, image returns the failure marker
`""` (the empty string, never a generated element id) and the store is
exactly as before — provided `params` is not `null`; with `null` params the
executor throws before even examining the element type (see the
counterexample), so the original unrestricted claim fails. -/
theorem c6_unknown_type (gen : Nat → String) (s : CanvasState)
    (o : JsObj) (etv : JVal)
    (hcmd : oget o "command" = some (.jstr "create"))
    (het : oget o "elementType" = some etv)
    (ht : jsTruthy etv = true)
    (h1 : etv ≠ .jstr "circle") (h2 : etv ≠ .jstr "rectangle")
    (h3 : etv ≠ .jstr "line") (h4 : etv ≠ .jstr "polygon")
    (h5 : etv ≠ .jstr "text") (h6 : etv ≠ .jstr "image")
    (hp : oget o "params" ≠ some .jnull) :
    executeCanvasCommand gen (.jobj o) s = .ok (some (.jstr ""), s) := by
  rw [exec_create_dispatch gen s o etv hcmd het ht]
  have hpd : (oget o "params").getD (.jobj []) ≠ .jnull := by
    cases hps : oget o "params" with
    | none => simp
    | some v =>
      cases v with
      | jnull => exact absurd hps hp
      | jbool b => simp
      | jnum q => simp
      | jstr t => simp
      | jarr xs => simp
      | jobj p => simp
  simp only [createCanvasElement, getOr_eq _ _ _ hpd, getU_eq _ _ _ hpd,
    except_bind_ok, except_pure_eq]
  rw [if_neg (by simp [jsStrictEq_jstr_eq_false etv _ h1]),
    if_neg (by simp [jsStrictEq_jstr_eq_false etv _ h2]),
    if_neg (by simp [jsStrictEq_jstr_eq_false etv _ h3]),
    if_neg (by simp [jsStrictEq_jstr_eq_false etv _ h4]),
    if_neg (by simp [jsStrictEq_jstr_eq_false etv _ h5]),
    if_neg (by simp [jsStrictEq_jstr_eq_false etv _ h6])]
  rfl

/-- C6 counterexample.  A create command with the unknown element type
`"blob"` *and* `params: null` throws a TypeError (the shared defaults are
read from `params` before the variant switch), so the executor neither
returns a failure marker nor anything else at this input, refuting the
unrestricted claim. -/
theorem c6_counterexample :
    executeCanvasCommand genDemo
        (.jobj [("command", .jstr "create"), ("elementType", .jstr "blob"),
                ("params", .jnull)]) initialState
      = .error () := by decide

/-- C6 witness: creating a `"blob"` with object params returns the
`""` marker and leaves the store unchanged. -/
theorem c6_witness :
    executeCanvasCommand genDemo
        (.jobj [("command", .jstr "create"), ("elementType", .jstr "blob"),
                ("params", .jobj [])]) initialState
      = .ok (some (.jstr ""), initialState) :=
  c6_unknown_type genDemo initialState
    [("command", .jstr "create"), ("elementType", .jstr "blob"),
     ("params", .jobj [])] (.jstr "blob")
    (by decide) (by decide) (by decide) (by decide) (by decide) (by decide)
    (by decide) (by decide) (by decide) (by decide)

/-- C7 (amended).  `parseCanvasCommands` returns all inline `/canvas`
line matches first (in line order), followed by the commands of at most the
first regex-matched fenced region — the first ``` fence whose body, after
an optional `json` tag and whitespace, starts with `[` or `{` and has a
bracket-terminated content followed by a closing fence.  That single region
contributes its items if its content parses as a JSON array, itself if it
parses as an object with a *truthy* `command` field, and nothing otherwise;
every later fenced block contributes nothing, even when the first region
yields no commands (see the counterexample: the claim's "first block whose
content is a JSON array or an object with a command field" is not what the
code selects). -/
theorem c7_parse_order :
    (∀ msg : String,
      parseCanvasCommands msg = inlineCommands msg.data ++ fencedCommands msg.data) ∧
    parseCanvasCommands
        "```\n[\x7b\"command\":\"clear\"\x7d]\n```\nmid\n```\n[\x7b\"command\":\"deselect\"\x7d]\n```"
      = [.jobj [("command", .jstr "clear")]] ∧
    parseCanvasCommands "/canvas deselect\n```\n[\x7b\"command\":\"clear\"\x7d]\n```"
      = [.jobj [("command", .jstr "deselect"), ("params", .jobj [])],
         .jobj [("command", .jstr "clear")]] := by
  exact ⟨fun msg => rfl, by decide, by decide⟩

/-- C7 counterexample.  The first fenced block holds `{"x": 1}` — a
valid JSON object without a `command` field — and the second block holds
`{"command": "deselect"}`, an object *with* a `command` field.  The claim
says the commands come from the first block whose content is a JSON array
or an object with a `command` field, i.e. the second block, yielding one
command; the code only ever examines the first bracket-delimited region and
returns no commands at all. -/
theorem c7_counterexample :
    parseCanvasCommands
        "```\n\x7b\"x\": 1\x7d\n```\n```\n\x7b\"command\": \"deselect\"\x7d\n```"
      = [] ∧
    parseJson "\x7b\"command\": \"deselect\"\x7d".data
      = some (.jobj [("command", .jstr "deselect")]) := by
  exact ⟨by decide, by decide⟩

theorem execCommands_length (gen : Nat → String) :
    ∀ (cmds : List JVal) (s : CanvasState) (res : List (Option JVal))
      (s2 : CanvasState), execCommands gen cmds s = .ok (res, s2) →
      res.length = cmds.length := by
  intro cmds
  induction cmds with
  | nil =>
    intro s res s2 h
    simp only [execCommands, Except.ok.injEq, Prod.mk.injEq] at h
    rw [← h.1]
    rfl
  | cons c cs ih =>
    intro s res s2 h
    simp only [execCommands] at h
    cases hexec : executeCanvasCommand gen c s with
    | error e =>
      rw [hexec] at h
      simp at h
    | ok d =>
      rw [hexec] at h
      simp only [except_bind_ok] at h
      cases hrec : execCommands gen cs d.2 with
      | error e =>
        rw [hrec] at h
        simp at h
      | ok d2 =>
        rw [hrec] at h
        simp only [except_bind_ok, except_pure_eq, Except.ok.injEq,
          Prod.mk.injEq] at h
        rw [← h.1]
        simp [ih d.2 d2.1 d2.2 hrec]

/-- C8 (amended).  Whenever `processAIMessage` returns (i.e. no command
in the batch throws), it returns exactly one outcome per parsed command, in
order, and a failure outcome (`undefined`) at an earlier position does not
stop later commands: in the concrete batch below the second command fails
with a missing-id `undefined` while the third still executes.  (The
original claim fails for batches containing a throwing command — a `null`
command aborts the whole map and no outcome list is returned at all; see
the counterexample.) -/
theorem c8_batch_outcomes :
    (∀ (gen : Nat → String) (msg : String) (s : CanvasState)
      (res : List (Option JVal)) (s2 : CanvasState),
      processAIMessage gen msg s = .ok (res, s2) →
      res.length = (parseCanvasCommands msg).length) ∧
    (Except.map (fun rs => rs.1)
      (processAIMessage genDemo
        "/canvas create circle\n/canvas select\n/canvas deselect" initialState)
      = .ok [some (.jstr "elem-0"), none, none]) := by
  constructor
  · intro gen msg s res s2 h
    exact execCommands_length gen (parseCanvasCommands msg) s res s2 h
  · decide

/-- C8 counterexample.  The fenced block `[null, {"command": "clear"}]`
parses to two commands, but executing the batch throws on the first (`null`)
command and `processAIMessage` returns no outcome list at all — the second
command receives no outcome — refuting "exactly one entry per parsed
command" for every input message. -/
theorem c8_counterexample :
    processAIMessage genDemo "```\n[null, \x7b\"command\": \"clear\"\x7d]\n```"
        initialState = .error () ∧
    (parseCanvasCommands "```\n[null, \x7b\"command\": \"clear\"\x7d]\n```").length = 2 := by
  exact ⟨by decide, by decide⟩

/-- C8 witness: a one-command message yields exactly one outcome. -/
theorem c8_witness :
    ([none] : List (Option JVal)).length
      = (parseCanvasCommands "/canvas deselect").length :=
  c8_batch_outcomes.1 genDemo "/canvas deselect" initialState [none]
    (clearSelection initialState) (by decide)

/-- C9 (amended).  For every store state in which no element's `id`
field is the JS value `null`, `clearSelection()` produces exactly the same
state as `selectElement(null)`: all `selected` flags become `false`,
`selectedElementId` becomes null, and everything else is untouched.  (The
restriction is needed: `selectElement(null)` computes each flag as
`element.id === null`, which is *true* for an element whose id has been
patched to `null`, while `clearSelection` unconditionally writes `false` —
see the counterexample, which reaches such a state through commands.) -/
theorem c9_clearSelection_eq_selectNull (s : CanvasState)
    (h : ∀ e ∈ s.elements, oget e "id" ≠ some .jnull) :
    clearSelection s = selectElement .jnull s := by
  simp only [clearSelection, selectElement, CanvasState.mk.injEq]
  refine ⟨?_, trivial, trivial⟩
  apply List.map_congr_left
  intro e he
  have : jsStrictEqOpt (oget e "id") (some .jnull) = false := by
    cases hid : oget e "id" with
    | none => rfl
    | some v =>
      cases v with
      | jnull => exact absurd hid (h e he)
      | jbool b => rfl
      | jnum q => rfl
      | jstr t => rfl
      | jarr xs => rfl
      | jobj fs => rfl
  rw [this]

/-- C9 counterexample.  Create a circle, then execute an update whose
params set `id: null` (reachable through the public command pipeline, since
only `type` is stripped from patches).  In the resulting state the two
operations differ: `selectElement(null)` flags that element selected
(`element.id === null` is true) while `clearSelection` does not, so they
are not equivalent on every store state. -/
theorem c9_counterexample :
    (Except.map (fun rs => rs.2.elements.map (fun e => oget e "id"))
      (Except.bind
        (executeCanvasCommand genDemo
          (.jobj [("command", .jstr "create"), ("elementType", .jstr "circle")])
          initialState)
        (fun rs => executeCanvasCommand genDemo
          (.jobj [("command", .jstr "update"), ("elementId", .jstr "elem-0"),
                  ("params", .jobj [("id", .jnull)])])
          rs.2)))
      = .ok [some .jnull] ∧
    (Except.map (fun rs => decide (clearSelection rs.2 = selectElement .jnull rs.2))
      (Except.bind
        (executeCanvasCommand genDemo
          (.jobj [("command", .jstr "create"), ("elementType", .jstr "circle")])
          initialState)
        (fun rs => executeCanvasCommand genDemo
          (.jobj [("command", .jstr "update"), ("elementId", .jstr "elem-0"),
                  ("params", .jobj [("id", .jnull)])])
          rs.2)))
      = .ok false := by
  exact ⟨by decide, by decide⟩

/-- C9 witness: the equivalence at a concrete state with a string id. -/
theorem c9_witness :
    clearSelection ⟨[[("id", .jstr "a"), ("selected", .jbool true)]], .jstr "a", 1⟩
      = selectElement .jnull ⟨[[("id", .jstr "a"), ("selected", .jbool true)]], .jstr "a", 1⟩ :=
  c9_clearSelection_eq_selectNull
    ⟨[[("id", .jstr "a"), ("selected", .jbool true)]], .jstr "a", 1⟩ (by decide)

/-- C10 (confirmed).  A command produced by the inline `/canvas` syntax
never carries an `elementId` field (the inline builder only ever sets
`command`, optionally `elementType`, and `params`), and executing any
object command without an `elementId` whose verb is `update`, `delete` or
`select` fails with the missing-elementId failure: it returns `undefined`
and leaves the store untouched.  Element ids can therefore only be supplied
through the fenced JSON block form.  The concrete conjunct shows
`/canvas delete elem-0` captures `elem` as `elementType` (the `\w+` group
stops at `-`), not an id, so even an existing element `elem-0` is not
deleted. -/
theorem c10_inline_no_elementId :
    (∀ (msg : String) (cmd : JVal), cmd ∈ inlineCommands msg.data →
      ∃ o, cmd = .jobj o ∧ oget o "elementId" = none) ∧
    (∀ (gen : Nat → String) (s : CanvasState) (o : JsObj) (v : String),
      oget o "elementId" = none → oget o "command" = some (.jstr v) →
      (v = "update" ∨ v = "delete" ∨ v = "select") →
      executeCanvasCommand gen (.jobj o) s = .ok (none, s)) ∧
    (parseCanvasCommands "/canvas delete elem-0"
      = [.jobj [("command", .jstr "delete"), ("elementType", .jstr "elem"),
                ("params", .jobj [])]] ∧
     executeCanvasCommand genDemo
        (.jobj [("command", .jstr "delete"), ("elementType", .jstr "elem"),
                ("params", .jobj [])])
        ⟨[[("id", .jstr "elem-0")]], .jnull, 1⟩
      = .ok (none, ⟨[[("id", .jstr "elem-0")]], .jnull, 1⟩)) := by
  refine ⟨?_, ?_, by decide, by decide⟩
  · intro msg cmd hmem
    simp only [inlineCommands, List.mem_filterMap, Option.map_eq_some'] at hmem
    obtain ⟨l, -, m, -, hbuild⟩ := hmem
    subst hbuild
    obtain ⟨w1, et, g3⟩ := m
    cases et with
    | none => exact ⟨_, rfl, by simp [buildInlineCommand, oget]⟩
    | some e => exact ⟨_, rfl, by simp [buildInlineCommand, oget]⟩
  · intro gen s o v heid hcmd hv
    rcases hv with hv | hv | hv
    all_goals subst hv
    · simp only [executeCanvasCommand, pget, except_bind_ok, except_pure_eq, hcmd]
      rw [if_neg (by decide), if_pos (by decide), heid]
      rfl
    · simp only [executeCanvasCommand, pget, except_bind_ok, except_pure_eq, hcmd]
      rw [if_neg (by decide), if_neg (by decide), if_pos (by decide), heid]
      rfl
    · simp only [executeCanvasCommand, pget, except_bind_ok, except_pure_eq, hcmd]
      rw [if_neg (by decide), if_neg (by decide), if_neg (by decide),
        if_neg (by decide), if_pos (by decide), heid]
      rfl

/-- C10 witness: an inline-style `delete` command without `elementId`
returns `undefined` and leaves the store unchanged. -/
theorem c10_witness :
    executeCanvasCommand genDemo
        (.jobj [("command", .jstr "delete"), ("params", .jobj [])])
        initialState = .ok (none, initialState) :=
  c10_inline_no_elementId.2.1 genDemo initialState
    [("command", .jstr "delete"), ("params", .jobj [])] "delete"
    (by decide) (by decide) (Or.inr (Or.inl rfl))
